import Mathlib

/-!
# Debug-operation lowering of the Triton CPU backend

A shallow embedding of `third_party/cpu/lib/TritonCPUToLLVM/DebugOpsToLLVM.cpp`:
the printf format-token synthesis (`getFormatSubstr`), the variadic promotion
(`printfPromoteValue`), the runtime-symbol declarations (`getOrAdd...Decl`), and
the three conversion patterns (print, assert, barrier).

Conventions of the embedding:

* a C++ `assert` that fails, a failing `cast<>` and an out-of-range subscript are
  modelled as `Except.error` with a `Failure` naming the violated precondition;
* the rewriter is an explicit state (`Rewriter`) holding the module's top-level
  symbol operations, the calls emitted so far and the erased operations;
* strings are Lean strings; a null byte is the character `'\x00'`;
* a text read through a reference into a buffer that has gone out of scope is
  not determined by the source: such reads take the bytes from a `DeadBuffer`
  argument, and every statement about them holds for every `DeadBuffer`.
-/

namespace DebugOpsToLLVM

/-! ## MLIR types -/

/-- Signedness semantics of an MLIR `IntegerType`. -/
inductive Signedness
  | Signless
  | Signed
  | Unsigned
deriving DecidableEq, Repr

/-- The builtin MLIR floating-point types. -/
inductive FloatKind
  | Float8E5M2
  | Float8E4M3FN
  | Float8E5M2FNUZ
  | Float8E4M3FNUZ
  | Float8E4M3B11FNUZ
  | BF16
  | F16
  | TF32
  | F32
  | F64
  | F80
  | F128
deriving DecidableEq, Repr

/-- Bit width of a floating-point type (`FloatType::getWidth`). -/
def FloatKind.getWidth : FloatKind → Nat
  | .Float8E5M2 => 8
  | .Float8E4M3FN => 8
  | .Float8E5M2FNUZ => 8
  | .Float8E4M3FNUZ => 8
  | .Float8E4M3B11FNUZ => 8
  | .BF16 => 16
  | .F16 => 16
  | .TF32 => 19
  | .F32 => 32
  | .F64 => 64
  | .F80 => 80
  | .F128 => 128

/-- The types a value handled by the lowering can have.  `llvmPointer` is
`LLVM::LLVMPointerType`, `ttPointer` is `triton::PointerType`; `llvmStruct` is a
literal LLVM struct type with two fields (the only structs this file builds);
`other` stands for any further builtin or dialect type (vectors, tensors, ...). -/
inductive Ty
  | integer (width : Nat) (signedness : Signedness)
  | index
  | float (kind : FloatKind)
  | llvmPointer
  | ttPointer (pointee : Ty)
  | unrankedMemRef (elementType : Ty)
  | llvmStruct (fst snd : Ty)
  | llvmVoid
  | other (tag : Nat)
deriving DecidableEq, Repr

/-- Violated preconditions: each constructor is one assertion of the source or of
the MLIR/LLVM API the source calls. -/
inductive Failure
  /-- `assert(false && "not supported type")` in `getFormatSubstr`. -/
  | notSupportedType
  /-- `Type::getIntOrFloatBitWidth` on a type that is neither integer nor float
  ("only integers and floats have a bitwidth"). -/
  | noBitWidth
  /-- `assert(!prefix.empty())` in the two print call builders. -/
  | emptyPrefix
  /-- `assert(op.getNumOperands() == 1)` in `usePrintf`. -/
  | operandCount
  /-- A `cast<T>` applied to something that is not a `T`. -/
  | badCast
  /-- A subscript past the end of an array. -/
  | outOfRange
  /-- The search for an unused constant name ran out of candidates. -/
  | noFreshName
deriving DecidableEq, Repr

instance instDecidableEqExcept {ε α : Type} [DecidableEq ε] [DecidableEq α] :
    DecidableEq (Except ε α)
  | .ok a, .ok b => if h : a = b then isTrue (by rw [h]) else isFalse (fun h2 => h (Except.ok.inj h2))
  | .error a, .error b =>
    if h : a = b then isTrue (by rw [h]) else isFalse (fun h2 => h (Except.error.inj h2))
  | .ok _, .error _ => isFalse (fun h => Except.noConfusion h)
  | .error _, .ok _ => isFalse (fun h => Except.noConfusion h)

namespace Ty

/-- Predicate `Type::isInteger()`: any `IntegerType`, whatever width or signedness. -/
def isInteger : Ty → Bool
  | integer _ _ => true
  | _ => false

/-- Predicate `Type::isIndex()`. -/
def isIndex : Ty → Bool
  | index => true
  | _ => false

/-- Predicate `isa<FloatType>`. -/
def isFloat : Ty → Bool
  | float _ => true
  | _ => false

/-- Predicate `Type::isIntOrIndex()`. -/
def isIntOrIndex (t : Ty) : Bool := t.isInteger || t.isIndex

/-- Predicate `Type::isIntOrFloat()`. -/
def isIntOrFloat (t : Ty) : Bool := t.isInteger || t.isFloat

/-- Predicate `Type::isIntOrIndexOrFloat()`. -/
def isIntOrIndexOrFloat (t : Ty) : Bool := t.isIntOrFloat || t.isIndex

/-- Predicate `Type::isUnsignedInteger()`. -/
def isUnsignedInteger : Ty → Bool
  | integer _ .Unsigned => true
  | _ => false

/-- Predicate `Type::isBF16()`. -/
def isBF16 : Ty → Bool
  | float .BF16 => true
  | _ => false

/-- Predicate `Type::isF16()`. -/
def isF16 : Ty → Bool
  | float .F16 => true
  | _ => false

/-- Predicate `Type::isF32()`. -/
def isF32 : Ty → Bool
  | float .F32 => true
  | _ => false

/-- Predicate `Type::isF64()`. -/
def isF64 : Ty → Bool
  | float .F64 => true
  | _ => false

/-- Predicate `isa<LLVM::LLVMPointerType>`. -/
def isLLVMPointer : Ty → Bool
  | llvmPointer => true
  | _ => false

/-- Predicate `isa<triton::PointerType>`. -/
def isTritonPointer : Ty → Bool
  | ttPointer _ => true
  | _ => false

/-- Width query `Type::getIntOrFloatBitWidth()`: asserts `isIntOrFloat()`, then
returns the integer width or the float width. -/
def getIntOrFloatBitWidth : Ty → Except Failure Nat
  | integer w _ => .ok w
  | float k => .ok k.getWidth
  | _ => .error .noBitWidth

end Ty

/-- Modelled from the spec: the macro `i32_ty` comes from a header outside
src/; the spec speaks of values "widened to 32 bits" and of `int32`
parameters.  It is the signless 32-bit integer type. -/
def i32_ty : Ty := .integer 32 .Signless

/-- Modelled from the spec: the macro `ui32_ty` comes from a header outside
src/; it is the type of the zero-extended ("unsigned") 32-bit result. -/
def ui32_ty : Ty := .integer 32 .Unsigned

/-- Modelled from the spec: the macro `i64_ty` (header outside src/), the
`int64` length field of the vector data record. -/
def i64_ty : Ty := .integer 64 .Signless

/-- Modelled from the spec: the macro `i1_ty` (header outside src/), the `bool`
condition parameter of the assertion entry point. -/
def i1_ty : Ty := .integer 1 .Signless

/-- Modelled from the spec: the macro `f64_ty` (header outside src/), the
"64-bit floating point" type narrower floats are extended to. -/
def f64_ty : Ty := .float .F64

/-- Modelled from the spec: the macro `ptr_ty(ctx)` (header outside src/), the
"text pointer" / "pointer" parameters of the runtime ABI. -/
def ptr_ty : Ty := .llvmPointer

/-- Modelled from the spec: the macro `void_ty(ctx)` (header outside src/), the
`void` return of the assertion entry point. -/
def void_ty : Ty := .llvmVoid

/-- Modelled from the spec: the macro `struct_ty` (header outside src/), the
"two-field record" the vector data is packed in. -/
def struct_ty (a b : Ty) : Ty := .llvmStruct a b

/-! ## Values -/

/-- SSA values.  `ssa` is a value defined outside the lowering (an operand, a
program id); the other constructors are the values the lowering itself creates:
the `zext` / `sext` / `fpext` casts of `printfPromoteValue`, the `i32_val`
constants, and the pointer to an interned string constant. -/
inductive Value
  | ssa (id : Nat) (type : Ty)
  | zext (type : Ty) (operand : Value)
  | sext (type : Ty) (operand : Value)
  | fpext (type : Ty) (operand : Value)
  | i32_val (v : Int)
  | stringStart (globalName : String)
deriving DecidableEq, Repr

/-- Accessor `Value::getType()`. -/
def Value.getType : Value → Ty
  | .ssa _ t => t
  | .zext t _ => t
  | .sext t _ => t
  | .fpext t _ => t
  | .i32_val _ => i32_ty
  | .stringStart _ => ptr_ty

/-! ## Format descriptor synthesis and value promotion -/

/-- The printf token for one value (`getFormatSubstr`, source lines 34-69).
`std::to_string` of the unsigned digit count and of the `int` width is the
decimal rendering `toString`. -/
def getFormatSubstr (value : Value) (hex : Bool) (width : Option Int)
    (isSigned : Bool) : Except Failure String :=
  let type := value.getType
  -- If the value is a pointer, just return %p.
  if type.isLLVMPointer then .ok "%p"
  else if hex then do
    -- Ignore width for hex values, pad to typeWidth.
    let w ← type.getIntOrFloatBitWidth
    let ret := "0x%0" ++ toString (w / 4)
    let ret := if w > 32 then ret ++ "ll" else ret
    .ok (ret ++ "x")
  else
    let pre := "%"
    let pre := match width with
      | some n => pre ++ toString n
      | none => pre
    if type.isBF16 || type.isF16 || type.isF32 || type.isF64 then .ok (pre ++ "f")
    else if type.isInteger then do
      let w ← type.getIntOrFloatBitWidth
      if w = 64 then .ok (pre ++ (if isSigned then "lli" else "llu"))
      else .ok (pre ++ (if isSigned then "i" else "u"))
    else .error .notSupportedType

/-- The variadic-call promotion (`printfPromoteValue`, source lines 72-89).  The
width query is only evaluated when `isIntOrIndex()` holds (short-circuit `&&`). -/
def printfPromoteValue (value : Value) : Except Failure Value :=
  let type := value.getType
  let isUnsigned := type.isUnsignedInteger
  do
    let narrow ← (if type.isIntOrIndex then do
                    let w ← type.getIntOrFloatBitWidth
                    pure (decide (w < 32))
                  else pure false)
    if narrow then
      if isUnsigned then .ok (.zext ui32_ty value) else .ok (.sext i32_ty value)
    else if type.isBF16 || type.isF16 || type.isF32 then .ok (.fpext f64_ty value)
    else .ok value

/-! ## Operations, module and rewriter state -/

/-- Signature of an LLVM function (`LLVM::LLVMFunctionType`). -/
structure LLVMFunctionType where
  result : Ty
  params : List Ty
  isVarArg : Bool
deriving DecidableEq, Repr

/-- A function declaration (`LLVM::LLVMFuncOp`). -/
structure LLVMFuncOp where
  symName : String
  type : LLVMFunctionType
deriving DecidableEq, Repr

/-- The symbol operations at the top level of a module: LLVM functions, global
string constants, and any other operation that defines a symbol. -/
inductive ModuleEntry
  | llvmFunc (f : LLVMFuncOp)
  | global (symName : String) (value : String)
  | otherSymbol (symName : String)
deriving DecidableEq, Repr

/-- Name of the symbol an entry defines. -/
def ModuleEntry.symName : ModuleEntry → String
  | .llvmFunc f => f.symName
  | .global n _ => n
  | .otherSymbol n => n

/-- Source locations (`Location`): call-site wrappers, concrete file/line/column
locations, and every other kind (unknown, name, fused). -/
inductive Location
  | callSite (callee caller : Location)
  | fileLineCol (filename : String) (line col : Nat)
  | otherLoc
deriving DecidableEq, Repr

/-- The print operation `triton::cpu::PrintOp`: the attributes and the operands
of the operation as written (before type conversion). -/
structure PrintOp where
  getPrefix : String
  getHex : Bool
  getOperands : List Value
  getIsSigned : List Int
deriving DecidableEq, Repr

/-- Accessor `getNumOperands`. -/
def PrintOp.getNumOperands (op : PrintOp) : Nat := op.getOperands.length

/-- The assert operation `triton::cpu::AssertOp`. -/
structure AssertOp where
  getCondition : Value
  getMessage : String
  getLoc : Location
deriving DecidableEq, Repr

/-- The debug operations the pass rewrites. -/
inductive DebugOp
  | print (op : PrintOp)
  | assert (op : AssertOp)
  | barrier
deriving DecidableEq, Repr

/-- A call operation created by `call(funcDecl, args)`. -/
structure CallOp where
  callee : LLVMFuncOp
  args : List Value
deriving DecidableEq, Repr

/-- The state a conversion pattern works on: the top-level symbol operations of
the enclosing module in order, the calls created so far at the insertion point,
and the operations erased so far. -/
structure Rewriter where
  moduleBody : List ModuleEntry
  calls : List CallOp
  erased : List DebugOp
deriving DecidableEq, Repr

/-- Symbol lookup `moduleOp.lookupSymbol(name)`: the first top-level operation
defining `name`, if any. -/
def lookupSymbol (body : List ModuleEntry) (name : String) : Option ModuleEntry :=
  body.find? (fun e => e.symName == name)

/-- The cast `cast<LLVM::LLVMFuncOp>(*funcOp)`. -/
def castLLVMFuncOp : ModuleEntry → Except Failure LLVMFuncOp
  | .llvmFunc f => .ok f
  | _ => .error .badCast

/-- Creation of a call `call(funcDecl, allArgs)` at the insertion point. -/
def call (r : Rewriter) (f : LLVMFuncOp) (args : List Value) : Rewriter :=
  { r with calls := r.calls ++ [⟨f, args⟩] }

/-- Erasure `rewriter.eraseOp(op)`. -/
def eraseOp (r : Rewriter) (op : DebugOp) : Rewriter :=
  { r with erased := r.erased ++ [op] }

/-! ## Constant interning -/

/-- Modelled from the spec: the name search of `LLVM::addStringToModule`, which
lives outside src/ ("a name derived from `namePrefix`, disambiguated per call
site so repeated prefixes do not collide"): the name prefix followed by the
least counter whose name is unused in the module.  A module with `n` symbols
leaves one of the first `n + 1` candidates unused. -/
def findFreshName (body : List ModuleEntry) (key : String) : Option String :=
  ((List.range (body.length + 1)).map (fun n => key ++ toString n)).find?
    (fun nm => (lookupSymbol body nm).isNone)

/-- Modelled from the spec: the null termination of the interning contract
("appends a trailing null byte if not already present"). -/
def ensureNullTerminated (content : String) : String :=
  if content.data.getLast? = some '\x00' then content else content.push '\x00'

/-- Modelled from the spec: `LLVM::addStringToModule(loc, rewriter, key, content)`
is declared outside src/.  Following the spec's interning contract, it appends a
trailing null byte if not already present, materializes a module-level constant
under a fresh name derived from `key`, and returns a pointer to it. -/
def addStringToModule (r : Rewriter) (key content : String) :
    Except Failure (Value × Rewriter) :=
  match findFreshName r.moduleBody key with
  | none => .error .noFreshName
  | some name =>
    .ok (.stringStart name,
      { r with moduleBody := .global name (ensureNullTerminated content) :: r.moduleBody })

/-- What reading a destroyed buffer yields: `dead written i` is the byte found at
offset `i` of a buffer that held the text `written` when it went out of scope.
The source does not determine these bytes, so they are an argument of every
function that reads such a buffer, and the statements hold for every choice. -/
def DeadBuffer : Type := String → Nat → Char

/-- The text read through a reference of `n` bytes into a destroyed buffer that
held `written`. -/
def readDead (dead : DeadBuffer) (written : String) (n : Nat) : String :=
  String.mk ((List.range n).map (dead written))

/-- The local buffer of `makeNullTerminatedString` after
`llvm::SmallString<64> ss(s); ss.push_back(0);`. -/
def nullTerminatedCopy (s : String) : String := s.push '\x00'

/-- The helper `makeNullTerminatedString` (source lines 152-156): it copies `s`
into the local `ss`, pushes a null byte, and returns `ss` as a `StringRef`.  The
reference has the size of `ss` and points into `ss`, which is destroyed on
return; whoever reads the result reads the destroyed buffer. -/
def makeNullTerminatedString (dead : DeadBuffer) (s : String) : String :=
  let ss := nullTerminatedCopy s
  readDead dead ss ss.length

/-! ## Runtime symbol declarations -/

/-- Declaration of the scalar or the legacy vector print entry point
(`getOrAddPrintFuncDecl`, source lines 91-115). -/
def getOrAddPrintFuncDecl (r : Rewriter) (printf : Bool) :
    Except Failure (LLVMFuncOp × Rewriter) :=
  let funcName := if printf then "printf" else "triton_vector_print"
  match lookupSymbol r.moduleBody funcName with
  | some funcOp => do
    let f ← castLLVMFuncOp funcOp
    pure (f, r)
  | none =>
    let argsType :=
      if printf then [ptr_ty]
      else [i32_ty, i32_ty, i32_ty, ptr_ty, ptr_ty, i32_ty, i32_ty, i32_ty, i64_ty, i32_ty]
    let funcType : LLVMFunctionType := ⟨i32_ty, argsType, printf⟩
    let f : LLVMFuncOp := ⟨funcName, funcType⟩
    -- setInsertionPointToStart(moduleOp.getBody())
    .ok (f, { r with moduleBody := .llvmFunc f :: r.moduleBody })

/-- Declaration of the unranked-memref print entry point
(`getOrAddPrintMemrefFuncDecl`, source lines 117-150). -/
def getOrAddPrintMemrefFuncDecl (r : Rewriter) : Except Failure (LLVMFuncOp × Rewriter) :=
  let funcName := "triton_print_unranked_memref"
  match lookupSymbol r.moduleBody funcName with
  | some funcOp => do
    let f ← castLLVMFuncOp funcOp
    pure (f, r)
  | none =>
    let structTy := struct_ty i64_ty ptr_ty
    let argsType :=
      [i32_ty, i32_ty, i32_ty, ptr_ty, structTy, i32_ty, i32_ty, i32_ty, i32_ty]
    let funcType : LLVMFunctionType := ⟨i32_ty, argsType, false⟩
    let f : LLVMFuncOp := ⟨funcName, funcType⟩
    .ok (f, { r with moduleBody := .llvmFunc f :: r.moduleBody })

/-- Declaration of the assertion entry point (`AssertOpConversion::getAssertFuncDecl`,
source lines 301-321); `LLVMFunctionType::get` without a third argument is
non-variadic. -/
def getAssertFuncDecl (r : Rewriter) : Except Failure (LLVMFuncOp × Rewriter) :=
  let funcName := "triton_assert"
  match lookupSymbol r.moduleBody funcName with
  | some funcOp => do
    let f ← castLLVMFuncOp funcOp
    pure (f, r)
  | none =>
    let argsType := [i32_ty, i32_ty, i32_ty, i1_ty, ptr_ty, ptr_ty, i32_ty, ptr_ty]
    let funcType : LLVMFunctionType := ⟨void_ty, argsType, false⟩
    let f : LLVMFuncOp := ⟨funcName, funcType⟩
    .ok (f, { r with moduleBody := .llvmFunc f :: r.moduleBody })

/-! ## Call builders -/

/-- The scalar print call (`createRuntimePrintScalarCall`, source lines 158-184).
`pid` is the coordinate triple; the stream `os` is the concatenation of the
pieces written to it. -/
def createRuntimePrintScalarCall (r : Rewriter) (pid : Value × Value × Value)
    (prefixStr : String) (arg : Option Value) (hex : Bool) (isSigned : Bool) :
    Except Failure Rewriter :=
  if prefixStr.isEmpty then .error .emptyPrefix
  else do
    let t0 ← getFormatSubstr pid.1 false none false
    let t1 ← getFormatSubstr pid.2.1 false none false
    let t2 ← getFormatSubstr pid.2.2 false none false
    let formatStr := "(" ++ t0 ++ ", " ++ t1 ++ ", " ++ t2 ++ ")" ++ prefixStr
    let formatStr ← (match arg with
      | some a => do
        let t ← getFormatSubstr a hex none isSigned
        pure (formatStr ++ t)
      | none => pure formatStr)
    let formatStrNewline := (formatStr.push '\n').push '\x00'
    let (formatStrValue, r1) ← addStringToModule r "printfFormat_" formatStrNewline
    let allArgs := [formatStrValue] ++ [pid.1, pid.2.1, pid.2.2]
    let allArgs ← (match arg with
      | some a => do
        let p ← printfPromoteValue a
        pure (allArgs ++ [p])
      | none => pure allArgs)
    let (funcDecl, r2) ← getOrAddPrintFuncDecl r1 true
    pure (call r2 funcDecl allArgs)

/-- The vector print call (`createRuntimePrintCall`, source lines 186-207).
`i32_val` of a `bool` is the constant 0 or 1. -/
def createRuntimePrintCall (dead : DeadBuffer) (r : Rewriter) (pid : Value × Value × Value)
    (prefixStr : String) (ptr : Value) (dtype : Ty) (isSigned : Bool) (hex : Bool) :
    Except Failure Rewriter :=
  if prefixStr.isEmpty then .error .emptyPrefix
  else do
    let (prefixValue, r1) ←
      addStringToModule r "vectorPrintPrefix_" (makeNullTerminatedString dead prefixStr)
    let allArgs := [pid.1, pid.2.1, pid.2.2]
    let allArgs := allArgs ++ [prefixValue]
    let allArgs := allArgs ++ [ptr]
    let w ← dtype.getIntOrFloatBitWidth
    let allArgs := allArgs ++ [Value.i32_val (w : Int)]
    let allArgs := allArgs ++ [Value.i32_val (if dtype.isInteger then 1 else 0)]
    let allArgs := allArgs ++ [Value.i32_val (if isSigned then 1 else 0)]
    let allArgs := allArgs ++ [Value.i32_val (if hex then 1 else 0)]
    let (funcDecl, r2) ← getOrAddPrintMemrefFuncDecl r1
    pure (call r2 funcDecl allArgs)

/-! ## Conversion patterns -/

/-- The enclosing function of a debug operation, as far as the lowering reads
it: the SSA names of its three program-id arguments. -/
structure ParentFunc where
  programIdArg : Nat → Nat

/-- Modelled from the spec: `getProgramId` is declared outside src/.  The spec's
coordinate is "an ordered triple of three integer values ... obtained once per
debug op from the enclosing function context", passed to the runtime as
`pid0,pid1,pid2: int32`: the program id along `axis` is an i32 value of the
enclosing function. -/
def getProgramId (funcOp : ParentFunc) (axis : Nat) : Value :=
  .ssa (funcOp.programIdArg axis) i32_ty

/-- The helper `getPid` (source lines 220-222). -/
def getPid (parent : ParentFunc) (axis : Nat) : Value := getProgramId parent axis

/-- The coordinate triple of a pattern,
`pid = {getPid(op, 0), getPid(op, 1), getPid(op, 2)}` (source line 232). -/
def pidOf (parent : ParentFunc) : Value × Value × Value :=
  (getPid parent 0, getPid parent 1, getPid parent 2)

/-- Modelled from the spec: the type converter is declared outside src/.  The
pattern receives the operands "already converted to the target low-level
representation"; for an unranked buffer that is the record the runtime takes as
`data: {length:int64, pointer}`.  `id` is the SSA name of the converted value. -/
def convertedMemRefOperand (id : Nat) : Value := .ssa id (struct_ty i64_ty ptr_ty)

/-- The path selection (`usePrintf`, source lines 209-218). -/
def usePrintf (op : PrintOp) : Except Failure Bool :=
  -- Simply use printf if no operand or the operand is scalar.
  if op.getNumOperands = 0 then .ok true
  else if op.getNumOperands ≠ 1 then .error .operandCount
  else
    match op.getOperands with
    | oprnd :: _ =>
      let oprType := oprnd.getType
      .ok (oprType.isIntOrIndexOrFloat || oprType.isTritonPointer)
    | [] => .error .outOfRange

/-- The subscript `xs[0]` on an array that may be empty. -/
def first {α : Type} : List α → Except Failure α
  | x :: _ => .ok x
  | [] => .error .outOfRange

/-- The cast `cast<UnrankedMemRefType>(type).getElementType()`. -/
def castUnrankedMemRefElementType : Ty → Except Failure Ty
  | .unrankedMemRef e => .ok e
  | _ => .error .badCast

/-- The print pattern (`PrintOpConversion::matchAndRewrite`, source lines
227-257).  `adaptorOperands` are the operands after type conversion and `pid`
the three program ids of the enclosing function (`getPid`), both supplied by the
conversion framework. -/
def PrintOpConversion.matchAndRewrite (dead : DeadBuffer) (op : PrintOp)
    (adaptorOperands : List Value) (pid : Value × Value × Value) (r : Rewriter) :
    Except Failure Rewriter := do
  let scalar ← usePrintf op
  if scalar then
    let r1 ← (if op.getNumOperands = 0 then
        createRuntimePrintScalarCall r pid op.getPrefix none false false
      else do
        let a ← first adaptorOperands
        let s ← first op.getIsSigned
        createRuntimePrintScalarCall r pid op.getPrefix (some a) op.getHex (s != 0))
    pure (eraseOp r1 (.print op))
  else
    let a ← first adaptorOperands
    let v ← first op.getOperands
    let dtype ← castUnrankedMemRefElementType v.getType
    let s ← first op.getIsSigned
    let r1 ← createRuntimePrintCall dead r pid op.getPrefix a dtype (s != 0) op.getHex
    pure (eraseOp r1 (.print op))

/-- The loop `while (auto callLoc = dyn_cast<CallSiteLoc>(loc)) loc = callLoc.getCallee();`. -/
def unwrapCallSites : Location → Location
  | .callSite callee _ => unwrapCallSites callee
  | loc => loc

/-- The conversion of the `unsigned` line number of a location to the `int`
variable `line` (source lines 277 and 285): 32-bit wrap-around, so values from
`2 ^ 31` on become negative. -/
def unsignedToInt (u : Nat) : Int :=
  if u % 2 ^ 32 < 2 ^ 31 then ((u % 2 ^ 32 : Nat) : Int)
  else ((u % 2 ^ 32 : Nat) : Int) - 2 ^ 32

/-- The assert pattern (`AssertOpConversion::matchAndRewrite`, source lines
264-299). -/
def AssertOpConversion.matchAndRewrite (dead : DeadBuffer) (op : AssertOp)
    (pid : Value × Value × Value) (r : Rewriter) : Except Failure Rewriter := do
  let (message, r1) ←
    addStringToModule r "assertMessage_" (makeNullTerminatedString dead op.getMessage)
  let loc := unwrapCallSites op.getLoc
  let (fileStr, line) := match loc with
    | .fileLineCol filename line _ => (filename, unsignedToInt line)
    | _ => ("unknown", (0 : Int))
  let funcStr := "unknown"
  let (file, r2) ← addStringToModule r1 "assertFile_" (makeNullTerminatedString dead fileStr)
  let (func, r3) ← addStringToModule r2 "assertFunc_" (makeNullTerminatedString dead funcStr)
  let args := [pid.1, pid.2.1, pid.2.2, op.getCondition, message, file,
    Value.i32_val line, func]
  let (funcDecl, r4) ← getAssertFuncDecl r3
  pure (eraseOp (call r4 funcDecl args) (.assert op))

/-- The barrier pattern (`BarrierOpConversion::matchAndRewrite`, source lines
332-338): just erase the operation. -/
def BarrierOpConversion.matchAndRewrite (r : Rewriter) : Except Failure Rewriter :=
  .ok (eraseOp r .barrier)

/-- One site the conversion framework visits: the operation, its converted
operands and the program ids of its enclosing function. -/
structure DebugSite where
  op : DebugOp
  adaptorOperands : List Value
  pid : Value × Value × Value
deriving DecidableEq, Repr

/-- Lowering of one debug operation by the pattern registered for its kind. -/
def lowerSite (dead : DeadBuffer) (site : DebugSite) (r : Rewriter) :
    Except Failure Rewriter :=
  match site.op with
  | .print op => PrintOpConversion.matchAndRewrite dead op site.adaptorOperands site.pid r
  | .assert op => AssertOpConversion.matchAndRewrite dead op site.pid r
  | .barrier => BarrierOpConversion.matchAndRewrite r

/-- The single-threaded traversal: the sites are lowered one after the other,
and the first violated precondition aborts the pass. -/
def lowerAll (dead : DeadBuffer) : List DebugSite → Rewriter → Except Failure Rewriter
  | [], r => .ok r
  | site :: rest, r => do
    let r1 ← lowerSite dead site r
    lowerAll dead rest r1

/-! ## Auxiliary definitions for the statements -/

/-- Value of a decimal digit string. -/
def decodeDecimal (cs : List Char) : Nat :=
  cs.foldl (fun acc c => 10 * acc + (c.toNat - 48)) 0

/-- The declaration `getOrAddPrintFuncDecl` creates for the scalar print symbol. -/
def printfDecl : LLVMFuncOp := ⟨"printf", ⟨i32_ty, [ptr_ty], true⟩⟩

/-- The declaration `getOrAddPrintMemrefFuncDecl` creates. -/
def printMemrefDecl : LLVMFuncOp :=
  ⟨"triton_print_unranked_memref",
    ⟨i32_ty, [i32_ty, i32_ty, i32_ty, ptr_ty, struct_ty i64_ty ptr_ty, i32_ty, i32_ty, i32_ty,
      i32_ty], false⟩⟩

/-- The declaration `getAssertFuncDecl` creates. -/
def assertDecl : LLVMFuncOp :=
  ⟨"triton_assert",
    ⟨void_ty, [i32_ty, i32_ty, i32_ty, i1_ty, ptr_ty, ptr_ty, i32_ty, ptr_ty], false⟩⟩

/-- The name `sym` is unused in the module or names an LLVM function: the
condition under which `cast<LLVM::LLVMFuncOp>` of the lookup result succeeds. -/
def symbolIsFuncOrAbsent (body : List ModuleEntry) (sym : String) : Bool :=
  match lookupSymbol body sym with
  | some (.llvmFunc _) => true
  | some _ => false
  | none => true

/-- What a `getOrAdd...Decl` call does for the symbol of `canon`: either the
symbol is found (`pre = []`, the module is unchanged) or `canon` is inserted at
the start of the module. -/
def DeclOutcome (body : List ModuleEntry) (canon f : LLVMFuncOp) (pre : List ModuleEntry) :
    Prop :=
  (pre = [] ∧ lookupSymbol body canon.symName = some (.llvmFunc f))
  ∨ (pre = [.llvmFunc f] ∧ lookupSymbol body canon.symName = none ∧ f = canon)

/-- The three declarations the lowerings of this file create. -/
def runtimeDecls : List LLVMFuncOp := [printfDecl, printMemrefDecl, assertDecl]

/-- The symbol names of a module body, in order. -/
def symbolNames (body : List ModuleEntry) : List String := body.map ModuleEntry.symName

/-- Module `b2` is a later state of module `b1`: name uniqueness is kept, every
symbol of `b1` still resolves to the same operation, and whatever resolves in
`b2` was already in `b1`, or is a string constant, or is one of the runtime
declarations. -/
def Extends (b1 b2 : List ModuleEntry) : Prop :=
  ((symbolNames b1).Nodup → (symbolNames b2).Nodup)
  ∧ (∀ s d, lookupSymbol b1 s = some d → lookupSymbol b2 s = some d)
  ∧ (∀ s d, lookupSymbol b2 s = some d →
      lookupSymbol b1 s = some d ∨ (∃ k c, d = .global k c)
        ∨ (∃ f, f ∈ runtimeDecls ∧ d = .llvmFunc f))

/-- What every `getOrAdd...Decl` guarantees when it returns: the module is a
later state with the same calls, and the symbol resolves to the returned
declaration. -/
def DeclReturned (canon : LLVMFuncOp) (r : Rewriter) (f : LLVMFuncOp) (r1 : Rewriter) : Prop :=
  Extends r.moduleBody r1.moduleBody ∧ r1.calls = r.calls ∧ r1.erased = r.erased
    ∧ f.symName = canon.symName
    ∧ lookupSymbol r1.moduleBody canon.symName = some (.llvmFunc f)

/-- A lowering took the rewriter from `r` to `r2` and emitted the calls `new`:
the module is a later state, the calls were appended, and each new call goes to
a runtime symbol that resolves, in the resulting module, to the call's callee. -/
def StepEmits (r r2 : Rewriter) (new : List CallOp) : Prop :=
  Extends r.moduleBody r2.moduleBody ∧ r2.calls = r.calls ++ new
    ∧ ∀ c ∈ new, (∃ canon, canon ∈ runtimeDecls ∧ c.callee.symName = canon.symName)
        ∧ lookupSymbol r2.moduleBody c.callee.symName = some (.llvmFunc c.callee)

/-- The number of calls a site's lowering emits: none for a barrier, one for a
print or an assert. -/
def DebugSite.callCount (site : DebugSite) : Nat :=
  match site.op with
  | .barrier => 0
  | _ => 1

/-- The text the width argument contributes to a decimal token. -/
def widthText : Option Int → String
  | some n => toString n
  | none => ""

/-- Two prints without operand in one function, lowered one after the other. -/
def twoPrintSites : List DebugSite :=
  [⟨.print ⟨"a", false, [], []⟩, [], (.ssa 0 i32_ty, .ssa 1 i32_ty, .ssa 2 i32_ty)⟩,
   ⟨.print ⟨"b", false, [], []⟩, [], (.ssa 0 i32_ty, .ssa 1 i32_ty, .ssa 2 i32_ty)⟩]

/-- The rewriter state after lowering `twoPrintSites` in an empty module. -/
def twoPrintResult : Rewriter :=
  { moduleBody := [.global "printfFormat_1" "(%u, %u, %u)b\n\x00", .llvmFunc printfDecl,
      .global "printfFormat_0" "(%u, %u, %u)a\n\x00"],
    calls := [⟨printfDecl, [.stringStart "printfFormat_0", .ssa 0 i32_ty, .ssa 1 i32_ty,
        .ssa 2 i32_ty]⟩,
      ⟨printfDecl, [.stringStart "printfFormat_1", .ssa 0 i32_ty, .ssa 1 i32_ty,
        .ssa 2 i32_ty]⟩],
    erased := [.print ⟨"a", false, [], []⟩, .print ⟨"b", false, [], []⟩] }

/-- A location wrapped in call-site locations: every element of `callers` adds
one `CallSiteLoc` whose callee is the location built so far. -/
def wrapCallSites : List Location → Location → Location
  | [], loc => loc
  | caller :: rest, loc => .callSite (wrapCallSites rest loc) caller

/-- The file name and line the assert pattern reads off a location that has been
unwrapped: those of a file/line/column location, the sentinels otherwise. -/
def fileAndLine : Location → String × Int
  | .fileLineCol filename line _ => (filename, unsignedToInt line)
  | _ => ("unknown", 0)

/-- A destroyed buffer that still reads as the text written to it. -/
def intactBuffer : DeadBuffer := fun written i => written.data.getD i '\x00'

/-- A destroyed buffer that has been overwritten and reads as `?` bytes. -/
def overwrittenBuffer : DeadBuffer := fun _ _ => '?'

/-- Three i32 program ids, as `getProgramId` hands them out. -/
def samplePid : Value × Value × Value := (.ssa 0 i32_ty, .ssa 1 i32_ty, .ssa 2 i32_ty)

/-- A rewriter on an empty module with nothing emitted or erased. -/
def emptyRewriter : Rewriter := ⟨[], [], []⟩

/-- The number of `%` characters of a string: the number of conversion
specifiers of a format string that contains no `%%`. -/
def countPercent (s : String) : Nat := s.data.count '%'

/-! ### Integer readings of bit patterns -/

/-- The integer a `w`-bit pattern denotes when read as an unsigned number. -/
def asUnsigned (w bits : Nat) : Int := ((bits % 2 ^ w : Nat) : Int)

/-- The integer a `w`-bit pattern denotes when read in two's complement. -/
def asSigned (w bits : Nat) : Int :=
  if bits % 2 ^ w < 2 ^ (w - 1) then ((bits % 2 ^ w : Nat) : Int)
  else ((bits % 2 ^ w : Nat) : Int) - 2 ^ w

/-- Bit pattern of `llvm.zext` from `w` to `w2` bits. -/
def zextBits (w w2 bits : Nat) : Nat := (bits % 2 ^ w) % 2 ^ w2

/-- Bit pattern of `llvm.sext` from `w` to `w2` bits: the sign bit is copied into
the new upper bits. -/
def sextBits (w w2 bits : Nat) : Nat :=
  if bits % 2 ^ w < 2 ^ (w - 1) then bits % 2 ^ w
  else (bits % 2 ^ w + (2 ^ w2 - 2 ^ w)) % 2 ^ w2

/-- Bit width of an integer type, 0 for every other type. -/
def Ty.intWidth : Ty → Nat
  | .integer w _ => w
  | _ => 0

/-- Bit pattern of an integer value, given the patterns `env` of the values
defined outside the lowering, taken modulo `2 ^ w` for a `w`-bit type. -/
def Value.intBits (env : Nat → Nat) : Value → Option Nat
  | .ssa id t => if t.isInteger then some (env id % 2 ^ t.intWidth) else none
  | .zext t v => (v.intBits env).map (fun b => zextBits v.getType.intWidth t.intWidth b)
  | .sext t v => (v.intBits env).map (fun b => sextBits v.getType.intWidth t.intWidth b)
  | .i32_val n => some (n % 2 ^ 32).toNat
  | .fpext _ _ => none
  | .stringStart _ => none

/-- The integer `printf` prints for a 32-bit argument under the decimal integer
tokens: `%i` reads it as signed, `%u` as unsigned. -/
def printedInteger (token : String) (bits : Nat) : Option Int :=
  if token = "%i" then some (asSigned 32 bits)
  else if token = "%u" then some (asUnsigned 32 bits)
  else none

/-- The integer a `w`-bit operand denotes under the signedness flag of the print
operation. -/
def operandInteger (isSigned : Bool) (w bits : Nat) : Int :=
  if isSigned then asSigned w bits else asUnsigned w bits

/-- Module `b2` is module `b1` with operations inserted at its start. -/
def Prepends (b1 b2 : List ModuleEntry) : Prop := ∃ added, b2 = added ++ b1

/-- A print without operand followed by an assert. -/
def printThenAssertSites : List DebugSite :=
  [⟨.print ⟨"a", false, [], []⟩, [], samplePid⟩,
   ⟨.assert ⟨.ssa 5 i1_ty, "boom", .otherLoc⟩, [], samplePid⟩]

/-- The rewriter state after lowering the print of `printThenAssertSites` in an
empty module. -/
def afterPrint : Rewriter :=
  { moduleBody := [.llvmFunc printfDecl, .global "printfFormat_0" "(%u, %u, %u)a\n\x00"],
    calls := [⟨printfDecl, [.stringStart "printfFormat_0", .ssa 0 i32_ty, .ssa 1 i32_ty,
      .ssa 2 i32_ty]⟩],
    erased := [.print ⟨"a", false, [], []⟩] }

/-- The rewriter state after lowering the assert of `printThenAssertSites` on
top of `afterPrint`. -/
def afterPrintThenAssert : Rewriter :=
  { moduleBody := [.llvmFunc assertDecl, .global "assertFunc_0" "unknown\x00",
      .global "assertFile_0" "unknown\x00", .global "assertMessage_0" "boom\x00",
      .llvmFunc printfDecl, .global "printfFormat_0" "(%u, %u, %u)a\n\x00"],
    calls := [⟨printfDecl, [.stringStart "printfFormat_0", .ssa 0 i32_ty, .ssa 1 i32_ty,
        .ssa 2 i32_ty]⟩,
      ⟨assertDecl, [.ssa 0 i32_ty, .ssa 1 i32_ty, .ssa 2 i32_ty, .ssa 5 i1_ty,
        .stringStart "assertMessage_0", .stringStart "assertFile_0", .i32_val 0,
        .stringStart "assertFunc_0"]⟩],
    erased := [.print ⟨"a", false, [], []⟩, .assert ⟨.ssa 5 i1_ty, "boom", .otherLoc⟩] }

/-! ## Decimal rendering is injective -/

theorem digitChar_decode (k : Nat) (hk : k < 10) : (Nat.digitChar k).toNat - 48 = k := by
  interval_cases k <;> decide

theorem toDigitsCore_append (fuel : Nat) : ∀ (n : Nat) (ds : List Char),
    Nat.toDigitsCore 10 fuel n ds = Nat.toDigitsCore 10 fuel n [] ++ ds := by
  induction fuel with
  | zero => intro n ds; simp [Nat.toDigitsCore]
  | succ fuel ih =>
    intro n ds
    simp only [Nat.toDigitsCore]
    split
    · simp
    · rw [ih (n / 10) (Nat.digitChar (n % 10) :: ds), ih (n / 10) [Nat.digitChar (n % 10)]]
      simp

theorem decodeDecimal_append_singleton (cs : List Char) (c : Char) :
    decodeDecimal (cs ++ [c]) = 10 * decodeDecimal cs + (c.toNat - 48) := by
  simp [decodeDecimal, List.foldl_append]

theorem decode_toDigitsCore (fuel : Nat) : ∀ n : Nat, n < fuel →
    decodeDecimal (Nat.toDigitsCore 10 fuel n []) = n := by
  induction fuel with
  | zero => intro n h; omega
  | succ fuel ih =>
    intro n h
    simp only [Nat.toDigitsCore]
    split
    · rename_i h0
      have : n < 10 := by omega
      simp [decodeDecimal, Nat.mod_eq_of_lt this, digitChar_decode n this]
    · rename_i h0
      rw [toDigitsCore_append, decodeDecimal_append_singleton, ih (n / 10) (by omega),
        digitChar_decode _ (Nat.mod_lt _ (by decide))]
      omega

theorem toString_nat_injective : Function.Injective (fun n : Nat => toString n) := by
  intro a b h
  have h2 : (Nat.toDigits 10 a) = (Nat.toDigits 10 b) := by
    have := congrArg String.data h
    simpa [toString, Nat.repr] using this
  have ha := decode_toDigitsCore (a + 1) a (by omega)
  have hb := decode_toDigitsCore (b + 1) b (by omega)
  unfold Nat.toDigits at h2
  rw [h2] at ha
  omega

/-! ## Symbol lookup and fresh names -/

theorem lookupSymbol_eq_none_iff (body : List ModuleEntry) (name : String) :
    lookupSymbol body name = none ↔ name ∉ body.map ModuleEntry.symName := by
  simp only [lookupSymbol, List.find?_eq_none, List.mem_map, not_exists, not_and]
  constructor
  · intro h e he heq
    exact h e he (by simp [heq])
  · intro h e he heq
    exact h e he (by simpa using heq)

theorem lookupSymbol_some (body : List ModuleEntry) (name : String) (e : ModuleEntry)
    (h : lookupSymbol body name = some e) : e ∈ body ∧ e.symName = name := by
  unfold lookupSymbol at h
  exact ⟨List.mem_of_find?_eq_some h, by simpa using List.find?_some h⟩

theorem lookupSymbol_cons (e : ModuleEntry) (body : List ModuleEntry) (name : String) :
    lookupSymbol (e :: body) name
      = if e.symName = name then some e else lookupSymbol body name := by
  simp only [lookupSymbol, List.find?_cons]
  by_cases h : e.symName = name
  · simp [h]
  · have hb : (e.symName == name) = false := by simpa using h
    simp [h, hb]

theorem key_append_injective (key : String) :
    Function.Injective (fun n : Nat => key ++ toString n) := by
  intro a b h
  apply toString_nat_injective
  have := congrArg String.data h
  simp only [String.data_append] at this
  exact String.ext (List.append_cancel_left this)

theorem findFreshName_isSome (body : List ModuleEntry) (key : String) :
    ∃ name, findFreshName body key = some name := by
  cases h : findFreshName body key with
  | some name => exact ⟨name, rfl⟩
  | none =>
    exfalso
    unfold findFreshName at h
    rw [List.find?_eq_none] at h
    have hsub : (List.range (body.length + 1)).map (fun n => key ++ toString n)
        ⊆ body.map ModuleEntry.symName := by
      intro nm hnm
      have := h nm hnm
      by_contra hcon
      exact this (by simp [(lookupSymbol_eq_none_iff body nm).2 hcon])
    have hnd : ((List.range (body.length + 1)).map (fun n => key ++ toString n)).Nodup :=
      (List.nodup_range _).map (key_append_injective key)
    have := (List.subperm_of_subset hnd hsub).length_le
    simp at this

theorem findFreshName_spec (body : List ModuleEntry) (key name : String)
    (h : findFreshName body key = some name) :
    lookupSymbol body name = none ∧ ∃ n : Nat, name = key ++ toString n := by
  unfold findFreshName at h
  have h1 := List.find?_some h
  have h2 := List.mem_of_find?_eq_some h
  simp only [List.mem_map, List.mem_range] at h2
  obtain ⟨n, _, hn⟩ := h2
  exact ⟨by simpa using h1, n, hn.symm⟩

/-! ## Declarations and interning: what the state functions return -/

theorem getOrAddPrintFuncDecl_ok (r : Rewriter)
    (h : symbolIsFuncOrAbsent r.moduleBody "printf" = true) :
    ∃ f pre, getOrAddPrintFuncDecl r true
        = .ok (f, { r with moduleBody := pre ++ r.moduleBody })
      ∧ DeclOutcome r.moduleBody printfDecl f pre := by
  unfold symbolIsFuncOrAbsent at h
  unfold getOrAddPrintFuncDecl DeclOutcome
  cases hl : lookupSymbol r.moduleBody "printf" with
  | none => exact ⟨printfDecl, [.llvmFunc printfDecl], by simp [printfDecl, hl], by simp [printfDecl, hl]⟩
  | some e =>
    cases e with
    | llvmFunc f => exact ⟨f, [], by simp [hl, castLLVMFuncOp, bind, Except.bind, pure, Except.pure],
        by simp [printfDecl, hl]⟩
    | global n v => simp [hl] at h
    | otherSymbol n => simp [hl] at h

theorem getOrAddPrintMemrefFuncDecl_ok (r : Rewriter)
    (h : symbolIsFuncOrAbsent r.moduleBody "triton_print_unranked_memref" = true) :
    ∃ f pre, getOrAddPrintMemrefFuncDecl r
        = .ok (f, { r with moduleBody := pre ++ r.moduleBody })
      ∧ DeclOutcome r.moduleBody printMemrefDecl f pre := by
  unfold symbolIsFuncOrAbsent at h
  unfold getOrAddPrintMemrefFuncDecl DeclOutcome
  cases hl : lookupSymbol r.moduleBody "triton_print_unranked_memref" with
  | none =>
    exact ⟨printMemrefDecl, [.llvmFunc printMemrefDecl], by simp [printMemrefDecl, hl],
      by simp [printMemrefDecl, hl]⟩
  | some e =>
    cases e with
    | llvmFunc f => exact ⟨f, [], by simp [hl, castLLVMFuncOp, bind, Except.bind, pure, Except.pure],
        by simp [printMemrefDecl, hl]⟩
    | global n v => simp [hl] at h
    | otherSymbol n => simp [hl] at h

theorem getAssertFuncDecl_ok (r : Rewriter)
    (h : symbolIsFuncOrAbsent r.moduleBody "triton_assert" = true) :
    ∃ f pre, getAssertFuncDecl r = .ok (f, { r with moduleBody := pre ++ r.moduleBody })
      ∧ DeclOutcome r.moduleBody assertDecl f pre := by
  unfold symbolIsFuncOrAbsent at h
  unfold getAssertFuncDecl DeclOutcome
  cases hl : lookupSymbol r.moduleBody "triton_assert" with
  | none =>
    exact ⟨assertDecl, [.llvmFunc assertDecl], by simp [assertDecl, hl], by simp [assertDecl, hl]⟩
  | some e =>
    cases e with
    | llvmFunc f => exact ⟨f, [], by simp [hl, castLLVMFuncOp, bind, Except.bind, pure, Except.pure],
        by simp [assertDecl, hl]⟩
    | global n v => simp [hl] at h
    | otherSymbol n => simp [hl] at h

theorem ensureNullTerminated_push (s : String) :
    ensureNullTerminated (s.push '\x00') = s.push '\x00' := by
  simp [ensureNullTerminated, String.data_push]

theorem addStringToModule_ok (r : Rewriter) (key content : String) :
    ∃ name, (∃ n : Nat, name = key ++ toString n)
      ∧ lookupSymbol r.moduleBody name = none
      ∧ addStringToModule r key content
        = .ok (.stringStart name,
            { r with moduleBody := .global name (ensureNullTerminated content) :: r.moduleBody }) := by
  obtain ⟨name, hname⟩ := findFreshName_isSome r.moduleBody key
  obtain ⟨hfree, hn⟩ := findFreshName_spec r.moduleBody key name hname
  exact ⟨name, hn, hfree, by simp [addStringToModule, hname]⟩

theorem key_append_ne (key t sym : String) (h : ¬ key.data <+: sym.data) : key ++ t ≠ sym := by
  intro heq
  apply h
  rw [← heq, String.data_append]
  exact List.prefix_append _ _

theorem symbolIsFuncOrAbsent_cons_global (body : List ModuleEntry) (name v sym : String)
    (hne : name ≠ sym) :
    symbolIsFuncOrAbsent (.global name v :: body) sym = symbolIsFuncOrAbsent body sym := by
  simp [symbolIsFuncOrAbsent, lookupSymbol_cons, ModuleEntry.symName, hne]

theorem lookupSymbol_cons_global (body : List ModuleEntry) (name v sym : String)
    (hne : name ≠ sym) :
    lookupSymbol (.global name v :: body) sym = lookupSymbol body sym := by
  simp [lookupSymbol_cons, ModuleEntry.symName, hne]

theorem push_newline_null (s : String) : (s.push '\n').push '\x00' = s ++ "\n" ++ "\x00" := by
  apply String.ext
  simp [String.data_push, String.data_append]

theorem ensureNullTerminated_append_null (s : String) :
    ensureNullTerminated (s ++ "\x00") = s ++ "\x00" := by
  simp [ensureNullTerminated, String.data_append]

/-- A value `getFormatSubstr` accepts is also accepted by `printfPromoteValue`. -/
theorem printfPromoteValue_ok_of_format (a : Value) (hex isSigned : Bool) (width : Option Int)
    (t : String) (h : getFormatSubstr a hex width isSigned = .ok t) :
    ∃ p, printfPromoteValue a = .ok p := by
  unfold getFormatSubstr at h
  unfold printfPromoteValue
  cases hT : a.getType with
  | integer w s =>
    by_cases hw : w < 32 <;> cases s <;>
      simp [hw, Ty.isIntOrIndex, Ty.isInteger, Ty.isUnsignedInteger, Ty.isBF16, Ty.isF16,
        Ty.isF32, Ty.getIntOrFloatBitWidth, bind, Except.bind, pure, Except.pure]
  | float k =>
    cases k <;>
      simp [Ty.isIntOrIndex, Ty.isInteger, Ty.isIndex, Ty.isUnsignedInteger, Ty.isBF16, Ty.isF16,
        Ty.isF32, bind, Except.bind, pure, Except.pure]
  | index =>
    cases hex <;>
      simp [hT, Ty.isLLVMPointer, Ty.isBF16, Ty.isF16, Ty.isF32, Ty.isF64, Ty.isInteger,
        Ty.getIntOrFloatBitWidth, bind, Except.bind] at h
  | _ =>
    simp [Ty.isIntOrIndex, Ty.isInteger, Ty.isIndex, Ty.isUnsignedInteger, Ty.isBF16, Ty.isF16,
      Ty.isF32, bind, Except.bind, pure, Except.pure]

/-- The result of the scalar print call, spelled out: one fresh string constant
at the head of the module, the printf declaration in front of it when it had to
be created, and one call appended. -/
theorem createRuntimePrintScalarCall_ok (r : Rewriter) (pid : Value × Value × Value)
    (prefixStr : String) (arg : Option Value) (hex isSigned : Bool)
    (t0 t1 t2 tok : String) (extra : List Value)
    (hne : prefixStr ≠ "")
    (h0 : getFormatSubstr pid.1 false none false = .ok t0)
    (h1 : getFormatSubstr pid.2.1 false none false = .ok t1)
    (h2 : getFormatSubstr pid.2.2 false none false = .ok t2)
    (harg : (arg = none ∧ tok = "" ∧ extra = [])
      ∨ (∃ a p, arg = some a ∧ getFormatSubstr a hex none isSigned = .ok tok
          ∧ printfPromoteValue a = .ok p ∧ extra = [p]))
    (hsym : symbolIsFuncOrAbsent r.moduleBody "printf" = true) :
    ∃ name f pre, (∃ n : Nat, name = "printfFormat_" ++ toString n)
      ∧ lookupSymbol r.moduleBody name = none
      ∧ DeclOutcome r.moduleBody printfDecl f pre
      ∧ createRuntimePrintScalarCall r pid prefixStr arg hex isSigned
        = .ok { moduleBody := pre ++ .global name
                  ("(" ++ t0 ++ ", " ++ t1 ++ ", " ++ t2 ++ ")" ++ prefixStr ++ tok
                    ++ "\n" ++ "\x00") :: r.moduleBody,
                calls := r.calls ++ [⟨f, [.stringStart name, pid.1, pid.2.1, pid.2.2] ++ extra⟩],
                erased := r.erased } := by
  have hemp : prefixStr.isEmpty = false := by
    cases hE : prefixStr.isEmpty
    · rfl
    · exact absurd ((String.isEmpty_iff _).1 hE) hne
  obtain ⟨name, ⟨n, hn⟩, hfree, hadd⟩ := addStringToModule_ok r "printfFormat_"
    ("(" ++ t0 ++ ", " ++ t1 ++ ", " ++ t2 ++ ")" ++ prefixStr ++ tok ++ "\n" ++ "\x00")
  have hnm : name ≠ "printf" := by
    rw [hn]; exact key_append_ne _ _ _ (by decide)
  have hsym1 : symbolIsFuncOrAbsent (.global name (ensureNullTerminated
      ("(" ++ t0 ++ ", " ++ t1 ++ ", " ++ t2 ++ ")" ++ prefixStr ++ tok ++ "\n" ++ "\x00"))
      :: r.moduleBody) "printf" = true := by
    rw [symbolIsFuncOrAbsent_cons_global _ _ _ _ hnm]; exact hsym
  obtain ⟨f, pre, hdecl, hout⟩ := getOrAddPrintFuncDecl_ok
    { r with moduleBody := .global name (ensureNullTerminated
      ("(" ++ t0 ++ ", " ++ t1 ++ ", " ++ t2 ++ ")" ++ prefixStr ++ tok ++ "\n" ++ "\x00"))
      :: r.moduleBody } hsym1
  have hout2 : DeclOutcome r.moduleBody printfDecl f pre := by
    unfold DeclOutcome at hout ⊢
    have hl := lookupSymbol_cons_global r.moduleBody name (ensureNullTerminated
      ("(" ++ t0 ++ ", " ++ t1 ++ ", " ++ t2 ++ ")" ++ prefixStr ++ tok ++ "\n" ++ "\x00"))
      printfDecl.symName hnm
    simpa only [hl] using hout
  refine ⟨name, f, pre, ⟨n, hn⟩, hfree, hout2, ?_⟩
  rw [ensureNullTerminated_append_null] at hdecl hadd
  unfold createRuntimePrintScalarCall
  rcases harg with ⟨ha, ht, he⟩ | ⟨a, p, ha, ht, hp, he⟩
  · subst ha ht he
    simp only [String.append_empty] at hadd hdecl
    simp only [hemp, h0, h1, h2, push_newline_null, hadd, hdecl, bind, Except.bind, pure,
      Except.pure, call, Bool.false_eq_true, if_false, String.append_empty, List.append_nil]
    rfl
  · subst ha he
    simp only [hemp, h0, h1, h2, ht, hp, push_newline_null, hadd, hdecl, bind, Except.bind, pure,
      Except.pure, call, Bool.false_eq_true, if_false]
    rfl

/-- The result of the vector print call, spelled out: the interned prefix at
the head of the module, the declaration in front of it when it had to be
created, and one call with nine arguments appended. -/
theorem createRuntimePrintCall_ok (dead : DeadBuffer) (r : Rewriter) (pid : Value × Value × Value)
    (prefixStr : String) (ptr : Value) (dtype : Ty) (isSigned hex : Bool) (w : Nat)
    (hne : prefixStr ≠ "")
    (hw : dtype.getIntOrFloatBitWidth = .ok w)
    (hsym : symbolIsFuncOrAbsent r.moduleBody "triton_print_unranked_memref" = true) :
    ∃ name f pre, (∃ n : Nat, name = "vectorPrintPrefix_" ++ toString n)
      ∧ lookupSymbol r.moduleBody name = none
      ∧ DeclOutcome r.moduleBody printMemrefDecl f pre
      ∧ createRuntimePrintCall dead r pid prefixStr ptr dtype isSigned hex
        = .ok { moduleBody := pre ++ .global name
                  (ensureNullTerminated (makeNullTerminatedString dead prefixStr))
                  :: r.moduleBody,
                calls := r.calls ++ [⟨f, [pid.1, pid.2.1, pid.2.2, .stringStart name, ptr,
                  .i32_val (w : Int), .i32_val (if dtype.isInteger then 1 else 0),
                  .i32_val (if isSigned then 1 else 0), .i32_val (if hex then 1 else 0)]⟩],
                erased := r.erased } := by
  have hemp : prefixStr.isEmpty = false := by
    cases hE : prefixStr.isEmpty
    · rfl
    · exact absurd ((String.isEmpty_iff _).1 hE) hne
  obtain ⟨name, ⟨n, hn⟩, hfree, hadd⟩ := addStringToModule_ok r "vectorPrintPrefix_"
    (makeNullTerminatedString dead prefixStr)
  have hnm : name ≠ "triton_print_unranked_memref" := by
    rw [hn]; exact key_append_ne _ _ _ (by decide)
  have hsym1 : symbolIsFuncOrAbsent (.global name
      (ensureNullTerminated (makeNullTerminatedString dead prefixStr)) :: r.moduleBody)
      "triton_print_unranked_memref" = true := by
    rw [symbolIsFuncOrAbsent_cons_global _ _ _ _ hnm]; exact hsym
  obtain ⟨f, pre, hdecl, hout⟩ := getOrAddPrintMemrefFuncDecl_ok
    { r with moduleBody := .global name
                (ensureNullTerminated (makeNullTerminatedString dead prefixStr))
                :: r.moduleBody } hsym1
  have hout2 : DeclOutcome r.moduleBody printMemrefDecl f pre := by
    unfold DeclOutcome at hout ⊢
    have hl := lookupSymbol_cons_global r.moduleBody name
      (ensureNullTerminated (makeNullTerminatedString dead prefixStr))
      printMemrefDecl.symName hnm
    simpa only [hl] using hout
  refine ⟨name, f, pre, ⟨n, hn⟩, hfree, hout2, ?_⟩
  unfold createRuntimePrintCall
  simp only [hemp, hadd, hw, hdecl, bind, Except.bind, pure,
    Except.pure, call, Bool.false_eq_true, if_false]
  rfl

/-! ## How the module grows -/

theorem extends_refl (b : List ModuleEntry) : Extends b b :=
  ⟨id, fun _ _ h => h, fun _ _ h => Or.inl h⟩

theorem extends_trans {b1 b2 b3 : List ModuleEntry} (h12 : Extends b1 b2)
    (h23 : Extends b2 b3) : Extends b1 b3 := by
  refine ⟨fun h => h23.1 (h12.1 h), fun s d h => h23.2.1 s d (h12.2.1 s d h), ?_⟩
  intro s d h
  rcases h23.2.2 s d h with h2 | h2 | h2
  · exact h12.2.2 s d h2
  · exact Or.inr (Or.inl h2)
  · exact Or.inr (Or.inr h2)

theorem extends_cons_fresh (b : List ModuleEntry) (e : ModuleEntry)
    (hfresh : lookupSymbol b e.symName = none)
    (hkind : (∃ k c, e = .global k c) ∨ (∃ f, f ∈ runtimeDecls ∧ e = .llvmFunc f)) :
    Extends b (e :: b) := by
  have hnot := (lookupSymbol_eq_none_iff b e.symName).1 hfresh
  refine ⟨?_, ?_, ?_⟩
  · intro hnd
    simp only [symbolNames, List.map_cons, List.nodup_cons]
    exact ⟨hnot, hnd⟩
  · intro s d h
    rw [lookupSymbol_cons]
    by_cases hs : e.symName = s
    · rw [hs, h] at hfresh; exact absurd hfresh (by simp)
    · simp [hs, h]
  · intro s d h
    rw [lookupSymbol_cons] at h
    by_cases hs : e.symName = s
    · simp only [hs, if_true, Option.some.injEq] at h
      rw [← h]; exact Or.inr hkind
    · simp only [hs, if_false] at h
      exact Or.inl h

theorem bind_eq_ok {α β : Type} (x : Except Failure α) (f : α → Except Failure β) (b : β) :
    (x >>= f) = .ok b ↔ ∃ a, x = .ok a ∧ f a = .ok b := by
  cases x with
  | error e => simp [bind, Except.bind]
  | ok a => simp [bind, Except.bind]

theorem addStringToModule_extends (r r1 : Rewriter) (key content : String) (v : Value)
    (h : addStringToModule r key content = .ok (v, r1)) :
    Extends r.moduleBody r1.moduleBody ∧ r1.calls = r.calls ∧ r1.erased = r.erased := by
  obtain ⟨name, _, hfree, hadd⟩ := addStringToModule_ok r key content
  rw [hadd] at h
  simp only [Except.ok.injEq, Prod.mk.injEq] at h
  obtain ⟨_, hr⟩ := h
  subst hr
  exact ⟨extends_cons_fresh _ _ hfree (Or.inl ⟨_, _, rfl⟩), rfl, rfl⟩

theorem declReturned_of_lookup (canon : LLVMFuncOp) (hc : canon ∈ runtimeDecls) (r : Rewriter)
    (f : LLVMFuncOp) (r1 : Rewriter)
    (h : (match lookupSymbol r.moduleBody canon.symName with
        | some funcOp => (do
          let f ← castLLVMFuncOp funcOp
          pure (f, r))
        | none => Except.ok (canon, { r with moduleBody := .llvmFunc canon :: r.moduleBody }))
      = .ok (f, r1)) :
    DeclReturned canon r f r1 := by
  unfold DeclReturned
  cases hl : lookupSymbol r.moduleBody canon.symName with
  | none =>
    simp only [hl, Except.ok.injEq, Prod.mk.injEq] at h
    obtain ⟨hf, hr⟩ := h
    subst hf hr
    refine ⟨extends_cons_fresh _ _ hl (Or.inr ⟨canon, hc, rfl⟩), rfl, rfl, rfl, ?_⟩
    simp [lookupSymbol_cons, ModuleEntry.symName]
  | some e =>
    cases e with
    | llvmFunc g =>
      simp only [hl, castLLVMFuncOp, bind, Except.bind, pure, Except.pure, Except.ok.injEq,
        Prod.mk.injEq] at h
      obtain ⟨hf, hr⟩ := h
      subst hf hr
      exact ⟨extends_refl _, rfl, rfl, (lookupSymbol_some _ _ _ hl).2, hl⟩
    | global n v => simp [hl, castLLVMFuncOp, bind, Except.bind] at h
    | otherSymbol n => simp [hl, castLLVMFuncOp, bind, Except.bind] at h

theorem getOrAddPrintFuncDecl_returned (r r1 : Rewriter) (f : LLVMFuncOp)
    (h : getOrAddPrintFuncDecl r true = .ok (f, r1)) : DeclReturned printfDecl r f r1 :=
  declReturned_of_lookup printfDecl (by simp [runtimeDecls]) r f r1
    (by simpa [getOrAddPrintFuncDecl, printfDecl] using h)

theorem getOrAddPrintMemrefFuncDecl_returned (r r1 : Rewriter) (f : LLVMFuncOp)
    (h : getOrAddPrintMemrefFuncDecl r = .ok (f, r1)) : DeclReturned printMemrefDecl r f r1 :=
  declReturned_of_lookup printMemrefDecl (by simp [runtimeDecls]) r f r1
    (by simpa [getOrAddPrintMemrefFuncDecl, printMemrefDecl] using h)

theorem getAssertFuncDecl_returned (r r1 : Rewriter) (f : LLVMFuncOp)
    (h : getAssertFuncDecl r = .ok (f, r1)) : DeclReturned assertDecl r f r1 :=
  declReturned_of_lookup assertDecl (by simp [runtimeDecls]) r f r1
    (by simpa [getAssertFuncDecl, assertDecl] using h)

theorem stepEmits_trans {r r1 r2 : Rewriter} {n1 n2 : List CallOp}
    (h1 : StepEmits r r1 n1) (h2 : StepEmits r1 r2 n2) : StepEmits r r2 (n1 ++ n2) := by
  obtain ⟨e1, c1, m1⟩ := h1
  obtain ⟨e2, c2, m2⟩ := h2
  refine ⟨extends_trans e1 e2, by rw [c2, c1, List.append_assoc], ?_⟩
  intro c hc
  rcases List.mem_append.1 hc with hc | hc
  · exact ⟨(m1 c hc).1, e2.2.1 _ _ (m1 c hc).2⟩
  · exact m2 c hc

theorem stepEmits_of_call (canon : LLVMFuncOp) (hcanon : canon ∈ runtimeDecls)
    (r r1 r2 : Rewriter) (f : LLVMFuncOp) (args : List Value)
    (hext : Extends r.moduleBody r1.moduleBody) (hc : r1.calls = r.calls)
    (he : r1.erased = r.erased) (hd : DeclReturned canon r1 f r2) :
    StepEmits r (call r2 f args) [⟨f, args⟩] ∧ (call r2 f args).erased = r.erased := by
  obtain ⟨hext2, hc2, he2, hname, hl⟩ := hd
  refine ⟨⟨extends_trans hext hext2, by simp [call, hc2, hc], ?_⟩, by simp [call, he2, he]⟩
  intro c hcm
  simp only [List.mem_singleton] at hcm
  subst hcm
  exact ⟨⟨canon, hcanon, hname⟩, by simpa [call, hname] using hl⟩

theorem createRuntimePrintScalarCall_step (r r2 : Rewriter) (pid : Value × Value × Value)
    (prefixStr : String) (arg : Option Value) (hex isSigned : Bool)
    (h : createRuntimePrintScalarCall r pid prefixStr arg hex isSigned = .ok r2) :
    ∃ c, StepEmits r r2 [c] ∧ r2.erased = r.erased := by
  unfold createRuntimePrintScalarCall at h
  split at h
  · simp at h
  · simp only [bind_eq_ok] at h
    obtain ⟨_, _, _, _, _, _, _, _, ⟨v, r1⟩, hadd, args, _, ⟨f, r1b⟩, hdecl, hcall⟩ := h
    simp only [pure, Except.pure, Except.ok.injEq] at hcall
    obtain ⟨hext, hc, he⟩ := addStringToModule_extends _ _ _ _ _ hadd
    have hd := getOrAddPrintFuncDecl_returned _ _ _ hdecl
    rw [← hcall]
    exact ⟨_, stepEmits_of_call printfDecl (by simp [runtimeDecls]) r r1 r1b f args hext hc he hd⟩

theorem createRuntimePrintCall_step (dead : DeadBuffer) (r r2 : Rewriter) (pid : Value × Value × Value)
    (prefixStr : String) (ptr : Value) (dtype : Ty) (isSigned hex : Bool)
    (h : createRuntimePrintCall dead r pid prefixStr ptr dtype isSigned hex = .ok r2) :
    ∃ c, StepEmits r r2 [c] ∧ r2.erased = r.erased := by
  unfold createRuntimePrintCall at h
  split at h
  · simp at h
  · simp only [bind_eq_ok] at h
    obtain ⟨⟨v, r1⟩, hadd, _, _, ⟨f, r1b⟩, hdecl, hcall⟩ := h
    simp only [pure, Except.pure, Except.ok.injEq] at hcall
    obtain ⟨hext, hc, he⟩ := addStringToModule_extends _ _ _ _ _ hadd
    have hd := getOrAddPrintMemrefFuncDecl_returned _ _ _ hdecl
    rw [← hcall]
    exact ⟨_, stepEmits_of_call printMemrefDecl (by simp [runtimeDecls]) r r1 r1b f _ hext hc
      he hd⟩

theorem stepEmits_eraseOp (r r2 : Rewriter) (new : List CallOp) (op : DebugOp)
    (h : StepEmits r r2 new) : StepEmits r (eraseOp r2 op) new := h

theorem printOp_matchAndRewrite_step (dead : DeadBuffer) (op : PrintOp) (adaptorOperands : List Value)
    (pid : Value × Value × Value) (r r2 : Rewriter)
    (h : PrintOpConversion.matchAndRewrite dead op adaptorOperands pid r = .ok r2) :
    ∃ c, StepEmits r r2 [c] := by
  unfold PrintOpConversion.matchAndRewrite at h
  simp only [bind_eq_ok] at h
  obtain ⟨scalar, _, h⟩ := h
  cases scalar with
  | true =>
    simp only [if_true, bind_eq_ok, pure, Except.pure, Except.ok.injEq] at h
    obtain ⟨r1, h1, hr⟩ := h
    subst hr
    split at h1
    · obtain ⟨c, hc, _⟩ := createRuntimePrintScalarCall_step _ _ _ _ _ _ _ h1
      exact ⟨c, hc⟩
    · simp only [bind_eq_ok] at h1
      obtain ⟨_, _, _, _, h1⟩ := h1
      obtain ⟨c, hc, _⟩ := createRuntimePrintScalarCall_step _ _ _ _ _ _ _ h1
      exact ⟨c, hc⟩
  | false =>
    simp only [Bool.false_eq_true, if_false, bind_eq_ok, pure, Except.pure,
      Except.ok.injEq] at h
    obtain ⟨_, _, _, _, _, _, _, _, r1, h1, hr⟩ := h
    subst hr
    obtain ⟨c, hc, _⟩ := createRuntimePrintCall_step _ _ _ _ _ _ _ _ _ h1
    exact ⟨c, hc⟩

theorem assertOp_matchAndRewrite_step (dead : DeadBuffer) (op : AssertOp)
    (pid : Value × Value × Value) (r r2 : Rewriter)
    (h : AssertOpConversion.matchAndRewrite dead op pid r = .ok r2) :
    ∃ c, StepEmits r r2 [c] := by
  unfold AssertOpConversion.matchAndRewrite at h
  simp only [bind_eq_ok] at h
  obtain ⟨⟨v1, r1⟩, hadd1, ⟨v2, r1b⟩, hadd2, ⟨v3, r1c⟩, hadd3, ⟨f, r1d⟩, hdecl, hcall⟩ := h
  simp only [pure, Except.pure, Except.ok.injEq] at hcall
  obtain ⟨hext1, hc1, he1⟩ := addStringToModule_extends _ _ _ _ _ hadd1
  obtain ⟨hext2, hc2, he2⟩ := addStringToModule_extends _ _ _ _ _ hadd2
  obtain ⟨hext3, hc3, he3⟩ := addStringToModule_extends _ _ _ _ _ hadd3
  have hd := getAssertFuncDecl_returned _ _ _ hdecl
  rw [← hcall]
  exact ⟨_, (stepEmits_of_call assertDecl (by simp [runtimeDecls]) r r1c r1d f _
    (extends_trans (extends_trans hext1 hext2) hext3) (by rw [hc3, hc2, hc1]) (by rw [he3, he2, he1]) hd).1⟩

theorem lowerSite_step (dead : DeadBuffer) (site : DebugSite) (r r2 : Rewriter)
    (h : lowerSite dead site r = .ok r2) :
    ∃ new, StepEmits r r2 new ∧ new.length = site.callCount := by
  unfold lowerSite at h
  unfold DebugSite.callCount
  cases hop : site.op with
  | print op =>
    rw [hop] at h
    obtain ⟨c, hc⟩ := printOp_matchAndRewrite_step _ _ _ _ _ _ h
    exact ⟨[c], hc, rfl⟩
  | assert op =>
    rw [hop] at h
    obtain ⟨c, hc⟩ := assertOp_matchAndRewrite_step _ _ _ _ _ h
    exact ⟨[c], hc, rfl⟩
  | barrier =>
    rw [hop] at h
    simp only [BarrierOpConversion.matchAndRewrite, Except.ok.injEq] at h
    subst h
    exact ⟨[], ⟨extends_refl _, by simp [eraseOp], by simp⟩, rfl⟩

theorem lowerAll_step (dead : DeadBuffer) (sites : List DebugSite) : ∀ (r r2 : Rewriter),
    lowerAll dead sites r = .ok r2 →
    ∃ new, StepEmits r r2 new ∧ new.length = (sites.map DebugSite.callCount).sum := by
  induction sites with
  | nil =>
    intro r r2 h
    simp only [lowerAll, Except.ok.injEq] at h
    subst h
    exact ⟨[], ⟨extends_refl _, by simp, by simp⟩, by simp⟩
  | cons site rest ih =>
    intro r r2 h
    simp only [lowerAll, bind_eq_ok] at h
    obtain ⟨r1, h1, h2⟩ := h
    obtain ⟨n1, hs1, hl1⟩ := lowerSite_step dead site r r1 h1
    obtain ⟨n2, hs2, hl2⟩ := ih r1 r2 h2
    exact ⟨n1 ++ n2, stepEmits_trans hs1 hs2, by simp [hl1, hl2]⟩

/-! ## Shared facts about tokens, promotion and path selection -/

theorem hexToken_eq (value : Value) (w : Nat) (width : Option Int) (isSigned : Bool)
    (hty : value.getType.isIntOrFloat = true)
    (hw : value.getType.getIntOrFloatBitWidth = .ok w) :
    getFormatSubstr value true width isSigned
      = .ok ("0x%0" ++ toString (w / 4) ++ (if w > 32 then "ll" else "") ++ "x") := by
  have hp : value.getType.isLLVMPointer = false := by
    cases hT : value.getType <;> simp_all [Ty.isLLVMPointer, Ty.isIntOrFloat, Ty.isInteger, Ty.isFloat]
  unfold getFormatSubstr
  simp only [hp, hw, Bool.false_eq_true, if_false, if_true]
  by_cases h32 : w > 32
  · simp [h32, bind, Except.bind]
  · simp [h32, bind, Except.bind]

theorem decimalToken_eq (value : Value) (width : Option Int) (isSigned : Bool)
    (hptr : value.getType.isLLVMPointer = false) :
    ((value.getType.isBF16 || value.getType.isF16 || value.getType.isF32
        || value.getType.isF64) = true →
      getFormatSubstr value false width isSigned = .ok ("%" ++ widthText width ++ "f"))
    ∧ (∀ w s, value.getType = .integer w s →
      getFormatSubstr value false width isSigned
        = .ok ("%" ++ widthText width ++
            (if w = 64 then (if isSigned then "lli" else "llu")
             else (if isSigned then "i" else "u")))) := by
  have hpre : (match width with
      | some n => "%" ++ toString n
      | none => "%") = "%" ++ widthText width := by
    cases width <;> simp [widthText]
  constructor
  · intro hf
    unfold getFormatSubstr
    simp only [hptr, hf, hpre, Bool.false_eq_true, if_false, if_true]
  · intro w s hT
    unfold getFormatSubstr
    simp only [hT, hpre, Ty.isLLVMPointer, Ty.isBF16, Ty.isF16, Ty.isF32, Ty.isF64, Ty.isInteger,
      Ty.getIntOrFloatBitWidth, Bool.false_eq_true, if_false, if_true, Bool.or_self]
    by_cases h64 : w = 64 <;> simp [h64, bind, Except.bind]

theorem promote_cases (value : Value) (hidx : value.getType ≠ .index) :
    (∀ w s, value.getType = .integer w s → w < 32 →
      printfPromoteValue value
        = .ok (if s = .Unsigned then .zext ui32_ty value else .sext i32_ty value))
    ∧ ((value.getType = .float .BF16 ∨ value.getType = .float .F16
        ∨ value.getType = .float .F32) →
      printfPromoteValue value = .ok (.fpext f64_ty value))
    ∧ ((∀ w s, value.getType = .integer w s → 32 ≤ w) →
      value.getType ≠ .float .BF16 → value.getType ≠ .float .F16 →
      value.getType ≠ .float .F32 →
      printfPromoteValue value = .ok value) := by
  refine ⟨?_, ?_, ?_⟩
  · intro w s hT hw
    unfold printfPromoteValue
    cases s <;>
      simp [hT, hw, Ty.isIntOrIndex, Ty.isInteger, Ty.isUnsignedInteger,
        Ty.getIntOrFloatBitWidth, bind, Except.bind, pure, Except.pure]
  · intro hT
    unfold printfPromoteValue
    rcases hT with hT | hT | hT <;>
      simp [hT, Ty.isIntOrIndex, Ty.isInteger, Ty.isIndex, Ty.isUnsignedInteger, Ty.isBF16,
        Ty.isF16, Ty.isF32, bind, Except.bind, pure, Except.pure]
  · intro hint hbf hf16 hf32
    unfold printfPromoteValue
    cases hT : value.getType with
    | integer w s =>
      have := hint w s hT
      have hlt : ¬ w < 32 := by omega
      simp [hlt, Ty.isIntOrIndex, Ty.isInteger, Ty.isUnsignedInteger, Ty.isBF16,
        Ty.isF16, Ty.isF32, Ty.getIntOrFloatBitWidth, bind, Except.bind, pure, Except.pure]
    | index => exact absurd hT hidx
    | float k =>
      cases k <;>
        simp_all [Ty.isIntOrIndex, Ty.isInteger, Ty.isIndex, Ty.isUnsignedInteger, Ty.isBF16,
          Ty.isF16, Ty.isF32, bind, Except.bind, pure, Except.pure]
    | _ =>
      simp [Ty.isIntOrIndex, Ty.isInteger, Ty.isIndex, Ty.isUnsignedInteger, Ty.isBF16,
        Ty.isF16, Ty.isF32, bind, Except.bind, pure, Except.pure]

theorem usePrintf_classify (op : PrintOp) :
    (usePrintf op = .ok true ↔
      (op.getNumOperands = 0 ∨ ∃ v, op.getOperands = [v] ∧
        (v.getType.isInteger = true ∨ v.getType.isIndex = true ∨ v.getType.isFloat = true
          ∨ v.getType.isTritonPointer = true)))
    ∧ (∀ v, op.getOperands = [v] →
        ¬ (v.getType.isInteger = true ∨ v.getType.isIndex = true ∨ v.getType.isFloat = true
          ∨ v.getType.isTritonPointer = true) →
        usePrintf op = .ok false
        ∧ ∀ (dead : DeadBuffer) adaptorOperands pid r,
          PrintOpConversion.matchAndRewrite dead op adaptorOperands pid r
            = (do
                let a ← first adaptorOperands
                let dtype ← castUnrankedMemRefElementType v.getType
                let s ← first op.getIsSigned
                let r1 ← createRuntimePrintCall dead r pid op.getPrefix a dtype (s != 0) op.getHex
                pure (eraseOp r1 (.print op))))
    ∧ (1 < op.getNumOperands →
        usePrintf op = .error .operandCount
        ∧ ∀ (dead : DeadBuffer) adaptorOperands pid r,
          PrintOpConversion.matchAndRewrite dead op adaptorOperands pid r = .error .operandCount) := by
  obtain ⟨pfx, hx, operands, sg⟩ := op
  refine ⟨?_, ?_, ?_⟩
  · cases operands with
    | nil => simp [usePrintf, PrintOp.getNumOperands]
    | cons v rest =>
      cases rest with
      | nil =>
        cases hT : v.getType <;>
          simp [usePrintf, PrintOp.getNumOperands, Ty.isIntOrIndexOrFloat, Ty.isIntOrFloat,
            Ty.isInteger, Ty.isFloat, Ty.isIndex, Ty.isTritonPointer, hT]
      | cons v2 rest2 => simp [usePrintf, PrintOp.getNumOperands]
  · intro v hv hnot
    simp only at hv
    subst hv
    have hu : usePrintf ⟨pfx, hx, [v], sg⟩ = .ok false := by
      simp only [usePrintf, PrintOp.getNumOperands, List.length_cons, List.length_nil,
        Ty.isIntOrIndexOrFloat, Ty.isIntOrFloat]
      revert hnot
      generalize v.getType = T
      intro hnot
      cases T <;> simp_all [Ty.isInteger, Ty.isFloat, Ty.isIndex, Ty.isTritonPointer]
    refine ⟨hu, ?_⟩
    intro dead adaptorOperands pid r
    simp only [PrintOpConversion.matchAndRewrite, hu, bind, Except.bind, first]
    cases first adaptorOperands <;> simp
  · intro hlt
    have hu : usePrintf ⟨pfx, hx, operands, sg⟩ = .error .operandCount := by
      simp only [PrintOp.getNumOperands] at hlt
      have h0 : operands.length ≠ 0 := by omega
      have h1 : operands.length ≠ 1 := by omega
      simp [usePrintf, PrintOp.getNumOperands, h0, h1]
    refine ⟨hu, ?_⟩
    intro dead adaptorOperands pid r
    simp [PrintOpConversion.matchAndRewrite, hu, bind, Except.bind]

/-! ## Format tokens and promotion -/

/-- C1: in hex mode, a value of integer or floating-point type of bit width `w`
gets the token `0x%0<w/4>x`, with `ll` before the `x` when `w > 32`, whatever the
width and signedness arguments are. -/
theorem getFormatSubstr_hex (value : Value) (w : Nat) (width : Option Int) (isSigned : Bool)
    (hty : value.getType.isIntOrFloat = true)
    (hw : value.getType.getIntOrFloatBitWidth = .ok w) :
    getFormatSubstr value true width isSigned
      = .ok ("0x%0" ++ toString (w / 4) ++ (if w > 32 then "ll" else "") ++ "x") :=
  hexToken_eq value w width isSigned hty hw

/-- Witness for C1: a 32-bit integer gives `0x%08x` with width 10 and with no
width alike, and a 64-bit integer gives `0x%016llx`. -/
theorem getFormatSubstr_hex_witness :
    getFormatSubstr (.ssa 0 i32_ty) true (some 10) false = .ok "0x%08x"
    ∧ getFormatSubstr (.ssa 0 i32_ty) true none true = .ok "0x%08x"
    ∧ getFormatSubstr (.ssa 1 i64_ty) true none true = .ok "0x%016llx" :=
  ⟨(getFormatSubstr_hex (.ssa 0 i32_ty) 32 (some 10) false (by decide) (by decide)).trans
      (by decide),
   (getFormatSubstr_hex (.ssa 0 i32_ty) 32 none true (by decide) (by decide)).trans
      (by decide),
   (getFormatSubstr_hex (.ssa 1 i64_ty) 64 none true (by decide) (by decide)).trans
      (by decide)⟩

/-- C2: in non-hex mode a non-pointer value gets `%`, then the decimal width if
one is given, then `f` for bf16, f16, f32 and f64, `lli` / `llu` for 64-bit
integers and `i` / `u` for integers of every other width, by signedness. -/
theorem getFormatSubstr_decimal (value : Value) (width : Option Int) (isSigned : Bool)
    (hptr : value.getType.isLLVMPointer = false) :
    ((value.getType.isBF16 || value.getType.isF16 || value.getType.isF32
        || value.getType.isF64) = true →
      getFormatSubstr value false width isSigned = .ok ("%" ++ widthText width ++ "f"))
    ∧ (∀ w s, value.getType = .integer w s →
      getFormatSubstr value false width isSigned
        = .ok ("%" ++ widthText width ++
            (if w = 64 then (if isSigned then "lli" else "llu")
             else (if isSigned then "i" else "u")))) :=
  decimalToken_eq value width isSigned hptr

/-- Witness for C2: a signed 64-bit integer printed with width 5. -/
theorem getFormatSubstr_decimal_witness :
    getFormatSubstr (.ssa 0 (.integer 64 .Signed)) false (some 5) true = .ok "%5lli" :=
  ((getFormatSubstr_decimal (.ssa 0 (.integer 64 .Signed)) (some 5) true (by decide)).2
    64 .Signed rfl).trans (by decide)

/-- C3: a value whose type is the LLVM pointer type gets `%p` under every
combination of the hex flag, the width and the signedness flag. -/
theorem getFormatSubstr_pointer (value : Value) (hex : Bool) (width : Option Int)
    (isSigned : Bool) (hptr : value.getType = .llvmPointer) :
    getFormatSubstr value hex width isSigned = .ok "%p" := by
  unfold getFormatSubstr
  simp [hptr, Ty.isLLVMPointer]

/-- Witness for C3: a pointer printed in hex mode with a width. -/
theorem getFormatSubstr_pointer_witness :
    getFormatSubstr (.ssa 0 .llvmPointer) true (some 8) true = .ok "%p" :=
  getFormatSubstr_pointer (.ssa 0 .llvmPointer) true (some 8) true rfl

/-- C5, as stated, fails in hex mode: for a signed 8-bit operand the format
string carries `0x%02x`, computed from the operand's own width, while the token
of the 32-bit value it is promoted to is `0x%08x`. -/
theorem scalar_hex_token_differs_from_promoted :
    createRuntimePrintScalarCall ⟨[], [], []⟩ (.ssa 0 i32_ty, .ssa 1 i32_ty, .ssa 2 i32_ty)
        "x: " (some (.ssa 3 (.integer 8 .Signed))) true true
      = .ok ⟨[.llvmFunc printfDecl, .global "printfFormat_0" "(%u, %u, %u)x: 0x%02x\n\x00"],
          [⟨printfDecl, [.stringStart "printfFormat_0", .ssa 0 i32_ty, .ssa 1 i32_ty,
            .ssa 2 i32_ty, .sext i32_ty (.ssa 3 (.integer 8 .Signed))]⟩], []⟩
    ∧ getFormatSubstr (.sext i32_ty (.ssa 3 (.integer 8 .Signed))) true none true
      = .ok "0x%08x" := by
  decide

/-- C5 (amended): for an integer operand narrower than 32 bits and every
signedness flag, the operand is promoted to a 32-bit integer value `p`; in
non-hex mode the operand token in the interned format string is the token
`getFormatSubstr` chooses for `p` under the same flags (`%i` or `%u`), and in hex
mode it is `0x%0<w/4>x`, from the operand's own width `w`. -/
theorem scalar_int_token_matches_promoted (r : Rewriter) (pid : Value × Value × Value)
    (prefixStr : String) (a : Value) (hex isSigned : Bool) (w : Nat) (s : Signedness)
    (t0 t1 t2 : String)
    (hne : prefixStr ≠ "")
    (h0 : getFormatSubstr pid.1 false none false = .ok t0)
    (h1 : getFormatSubstr pid.2.1 false none false = .ok t1)
    (h2 : getFormatSubstr pid.2.2 false none false = .ok t2)
    (hsym : symbolIsFuncOrAbsent r.moduleBody "printf" = true)
    (hT : a.getType = .integer w s) (hw : w < 32) :
    ∃ p tokP, printfPromoteValue a = .ok p
      ∧ p.getType = .integer 32 (if s = .Unsigned then .Unsigned else .Signless)
      ∧ getFormatSubstr p false none isSigned = .ok tokP
      ∧ tokP = (if isSigned then "%i" else "%u")
      ∧ ∃ name f pre,
        createRuntimePrintScalarCall r pid prefixStr (some a) hex isSigned
          = .ok { moduleBody := pre ++ .global name
                    ("(" ++ t0 ++ ", " ++ t1 ++ ", " ++ t2 ++ ")" ++ prefixStr
                      ++ (if hex then "0x%0" ++ toString (w / 4) ++ "x" else tokP)
                      ++ "\n" ++ "\x00") :: r.moduleBody,
                  calls := r.calls
                    ++ [⟨f, [.stringStart name, pid.1, pid.2.1, pid.2.2] ++ [p]⟩],
                  erased := r.erased } := by
  have hidx : a.getType ≠ .index := by rw [hT]; exact fun h => Ty.noConfusion h
  have hp := (promote_cases a hidx).1 w s hT hw
  have hptr : a.getType.isLLVMPointer = false := by rw [hT]; rfl
  have hw32 : ¬ w > 32 := by omega
  have hw64 : w ≠ 64 := by omega
  have htok : getFormatSubstr a hex none isSigned
      = .ok (if hex then "0x%0" ++ toString (w / 4) ++ "x"
             else (if isSigned then "%i" else "%u")) := by
    cases hex
    · have := (decimalToken_eq a none isSigned hptr).2 w s hT
      rw [this]; cases isSigned <;> simp [hw64, widthText]
    · have := hexToken_eq a w none isSigned (by rw [hT]; rfl) (by rw [hT]; rfl)
      rw [this]; simp [hw32]
  refine ⟨if s = .Unsigned then .zext ui32_ty a else .sext i32_ty a,
    if isSigned then "%i" else "%u", hp, ?_, ?_, rfl, ?_⟩
  · cases s <;> simp [Value.getType, ui32_ty, i32_ty]
  · cases s <;> cases isSigned <;>
      simp [getFormatSubstr, Value.getType, ui32_ty, i32_ty, Ty.isLLVMPointer, Ty.isBF16,
        Ty.isF16, Ty.isF32, Ty.isF64, Ty.isInteger, Ty.getIntOrFloatBitWidth, bind, Except.bind]
  · obtain ⟨name, f, pre, _, _, _, hres⟩ := createRuntimePrintScalarCall_ok r pid prefixStr
      (some a) hex isSigned t0 t1 t2 _ _ hne h0 h1 h2
      (Or.inr ⟨a, _, rfl, htok, hp, rfl⟩) hsym
    exact ⟨name, f, pre, hres⟩

/-- Witness for C5 (amended): a signed 8-bit operand in non-hex mode is
formatted as `%i`, the token of the 32-bit value it is promoted to. -/
theorem scalar_int_token_matches_promoted_witness :
    ∃ p tokP, printfPromoteValue (.ssa 3 (.integer 8 .Signed)) = .ok p
      ∧ p.getType = .integer 32 (if Signedness.Signed = .Unsigned then .Unsigned else .Signless)
      ∧ getFormatSubstr p false none true = .ok tokP
      ∧ tokP = (if true then "%i" else "%u")
      ∧ ∃ name f pre,
        createRuntimePrintScalarCall ⟨[], [], []⟩
            (.ssa 0 i32_ty, .ssa 1 i32_ty, .ssa 2 i32_ty) "x: "
            (some (.ssa 3 (.integer 8 .Signed))) false true
          = .ok { moduleBody := pre ++ .global name
                    ("(" ++ "%u" ++ ", " ++ "%u" ++ ", " ++ "%u" ++ ")" ++ "x: "
                      ++ (if false then "0x%0" ++ toString (8 / 4) ++ "x" else tokP)
                      ++ "\n" ++ "\x00") :: [],
                  calls := [] ++ [⟨f, [.stringStart name, .ssa 0 i32_ty, .ssa 1 i32_ty,
                    .ssa 2 i32_ty] ++ [p]⟩],
                  erased := [] } :=
  scalar_int_token_matches_promoted ⟨[], [], []⟩ (.ssa 0 i32_ty, .ssa 1 i32_ty, .ssa 2 i32_ty)
    "x: " (.ssa 3 (.integer 8 .Signed)) false true 8 .Signed "%u" "%u" "%u"
    (by decide) (by decide) (by decide) (by decide) (by decide) rfl (by decide)

/-- C6, as stated, fails in hex mode: for an f16 operand printed with the hex
flag the operand token in the format string is `0x%04x`, not `%f`. -/
theorem scalar_hex_float_token_not_percent_f :
    createRuntimePrintScalarCall ⟨[], [], []⟩ (.ssa 0 i32_ty, .ssa 1 i32_ty, .ssa 2 i32_ty)
        "x: " (some (.ssa 3 (.float .F16))) true false
      = .ok ⟨[.llvmFunc printfDecl, .global "printfFormat_0" "(%u, %u, %u)x: 0x%04x\n\x00"],
          [⟨printfDecl, [.stringStart "printfFormat_0", .ssa 0 i32_ty, .ssa 1 i32_ty,
            .ssa 2 i32_ty, .fpext f64_ty (.ssa 3 (.float .F16))]⟩], []⟩ := by
  decide

/-- C6 (amended): for an operand of type f16, bf16 or f32, the operand token in
the interned format string is exactly `%f` in non-hex mode, whatever the width of
the operand type; in hex mode it is `0x%0<w/4>x` for the operand's width `w`.
The argument passed is the operand extended to f64. -/
theorem scalar_float_token (r : Rewriter) (pid : Value × Value × Value)
    (prefixStr : String) (a : Value) (hex isSigned : Bool) (k : FloatKind)
    (t0 t1 t2 : String)
    (hne : prefixStr ≠ "")
    (h0 : getFormatSubstr pid.1 false none false = .ok t0)
    (h1 : getFormatSubstr pid.2.1 false none false = .ok t1)
    (h2 : getFormatSubstr pid.2.2 false none false = .ok t2)
    (hsym : symbolIsFuncOrAbsent r.moduleBody "printf" = true)
    (hT : a.getType = .float k) (hk : k = .F16 ∨ k = .BF16 ∨ k = .F32) :
    ∃ name f pre,
      createRuntimePrintScalarCall r pid prefixStr (some a) hex isSigned
        = .ok { moduleBody := pre ++ .global name
                  ("(" ++ t0 ++ ", " ++ t1 ++ ", " ++ t2 ++ ")" ++ prefixStr
                    ++ (if hex then "0x%0" ++ toString (k.getWidth / 4) ++ "x" else "%f")
                    ++ "\n" ++ "\x00") :: r.moduleBody,
                calls := r.calls
                  ++ [⟨f, [.stringStart name, pid.1, pid.2.1, pid.2.2] ++ [.fpext f64_ty a]⟩],
                erased := r.erased } := by
  have hidx : a.getType ≠ .index := by rw [hT]; exact fun h => Ty.noConfusion h
  have hp := (promote_cases a hidx).2.1
    (by rcases hk with h | h | h <;> simp [hT, h])
  have hptr : a.getType.isLLVMPointer = false := by rw [hT]; rfl
  have hw32 : ¬ k.getWidth > 32 := by
    rcases hk with h | h | h <;> simp [h, FloatKind.getWidth]
  have htok : getFormatSubstr a hex none isSigned
      = .ok (if hex then "0x%0" ++ toString (k.getWidth / 4) ++ "x" else "%f") := by
    cases hex
    · have := (decimalToken_eq a none isSigned hptr).1
        (by rcases hk with h | h | h <;> simp [hT, h, Ty.isBF16, Ty.isF16, Ty.isF32])
      rw [this]; simp [widthText]
    · have := hexToken_eq a k.getWidth none isSigned (by rw [hT]; rfl) (by rw [hT]; rfl)
      rw [this]; simp [hw32]
  obtain ⟨name, f, pre, _, _, _, hres⟩ := createRuntimePrintScalarCall_ok r pid prefixStr
    (some a) hex isSigned t0 t1 t2 _ _ hne h0 h1 h2
    (Or.inr ⟨a, _, rfl, htok, hp, rfl⟩) hsym
  exact ⟨name, f, pre, hres⟩

/-- Witness for C6 (amended): a bf16 operand in non-hex mode. -/
theorem scalar_float_token_witness :
    ∃ name f pre,
      createRuntimePrintScalarCall ⟨[], [], []⟩
          (.ssa 0 i32_ty, .ssa 1 i32_ty, .ssa 2 i32_ty) "x: "
          (some (.ssa 3 (.float .BF16))) false false
        = .ok { moduleBody := pre ++ .global name
                  ("(" ++ "%u" ++ ", " ++ "%u" ++ ", " ++ "%u" ++ ")" ++ "x: "
                    ++ (if false then "0x%0" ++ toString (FloatKind.BF16.getWidth / 4) ++ "x"
                        else "%f")
                    ++ "\n" ++ "\x00") :: [],
                calls := [] ++ [⟨f, [.stringStart name, .ssa 0 i32_ty, .ssa 1 i32_ty,
                  .ssa 2 i32_ty] ++ [.fpext f64_ty (.ssa 3 (.float .BF16))]⟩],
                erased := [] } :=
  scalar_float_token ⟨[], [], []⟩ (.ssa 0 i32_ty, .ssa 1 i32_ty, .ssa 2 i32_ty)
    "x: " (.ssa 3 (.float .BF16)) false false .BF16 "%u" "%u" "%u"
    (by decide) (by decide) (by decide) (by decide) (by decide) rfl (by decide)

/-- The scalar call builder on its own: the interned text and the argument list
without and with an operand. -/
theorem createRuntimePrintScalarCall_spec (r : Rewriter) (pid : Value × Value × Value)
    (prefixStr : String) (hex isSigned : Bool) (t0 t1 t2 : String)
    (hne : prefixStr ≠ "")
    (h0 : getFormatSubstr pid.1 false none false = .ok t0)
    (h1 : getFormatSubstr pid.2.1 false none false = .ok t1)
    (h2 : getFormatSubstr pid.2.2 false none false = .ok t2)
    (hsym : symbolIsFuncOrAbsent r.moduleBody "printf" = true) :
    (∃ name f pre, lookupSymbol r.moduleBody name = none ∧ f.symName = "printf"
      ∧ DeclOutcome r.moduleBody printfDecl f pre
      ∧ createRuntimePrintScalarCall r pid prefixStr none hex isSigned
        = .ok { moduleBody := pre ++ .global name
                  ("(" ++ t0 ++ ", " ++ t1 ++ ", " ++ t2 ++ ")" ++ prefixStr ++ "\n" ++ "\x00")
                  :: r.moduleBody,
                calls := r.calls ++ [⟨f, [.stringStart name, pid.1, pid.2.1, pid.2.2]⟩],
                erased := r.erased })
    ∧ (∀ a tok, getFormatSubstr a hex none isSigned = .ok tok →
      ∃ p name f pre, printfPromoteValue a = .ok p
        ∧ lookupSymbol r.moduleBody name = none ∧ f.symName = "printf"
        ∧ DeclOutcome r.moduleBody printfDecl f pre
        ∧ createRuntimePrintScalarCall r pid prefixStr (some a) hex isSigned
          = .ok { moduleBody := pre ++ .global name
                    ("(" ++ t0 ++ ", " ++ t1 ++ ", " ++ t2 ++ ")" ++ prefixStr ++ tok
                      ++ "\n" ++ "\x00") :: r.moduleBody,
                  calls := r.calls ++ [⟨f, [.stringStart name, pid.1, pid.2.1, pid.2.2, p]⟩],
                  erased := r.erased }) := by
  have hname : ∀ (f : LLVMFuncOp) (pre : List ModuleEntry),
      DeclOutcome r.moduleBody printfDecl f pre → f.symName = "printf" := by
    intro f pre hout
    rcases hout with ⟨_, hl⟩ | ⟨_, _, hf⟩
    · exact (lookupSymbol_some _ _ _ hl).2
    · rw [hf]; rfl
  constructor
  · obtain ⟨name, f, pre, _, hfree, hout, hres⟩ := createRuntimePrintScalarCall_ok r pid
      prefixStr none hex isSigned t0 t1 t2 "" [] hne h0 h1 h2 (Or.inl ⟨rfl, rfl, rfl⟩) hsym
    refine ⟨name, f, pre, hfree, hname f pre hout, hout, ?_⟩
    simpa using hres
  · intro a tok htok
    obtain ⟨p, hp⟩ := printfPromoteValue_ok_of_format a hex isSigned none tok htok
    obtain ⟨name, f, pre, _, hfree, hout, hres⟩ := createRuntimePrintScalarCall_ok r pid
      prefixStr (some a) hex isSigned t0 t1 t2 tok [p] hne h0 h1 h2
      (Or.inr ⟨a, p, rfl, htok, hp, rfl⟩) hsym
    exact ⟨p, name, f, pre, hp, hfree, hname f pre hout, hout, by simpa using hres⟩

/-! ## Path selection and the vector print call -/

/-- C9: `usePrintf` returns true exactly when the operation has no operand or its
single operand has integer, index, floating-point or Triton pointer type; for a
single operand of any other type it returns false and the pattern runs the
vector path; with more than one operand the operand-count assertion fails. -/
theorem usePrintf_spec (op : PrintOp) :
    (usePrintf op = .ok true ↔
      (op.getNumOperands = 0 ∨ ∃ v, op.getOperands = [v] ∧
        (v.getType.isInteger = true ∨ v.getType.isIndex = true ∨ v.getType.isFloat = true
          ∨ v.getType.isTritonPointer = true)))
    ∧ (∀ v, op.getOperands = [v] →
        ¬ (v.getType.isInteger = true ∨ v.getType.isIndex = true ∨ v.getType.isFloat = true
          ∨ v.getType.isTritonPointer = true) →
        usePrintf op = .ok false
        ∧ ∀ (dead : DeadBuffer) adaptorOperands pid r,
          PrintOpConversion.matchAndRewrite dead op adaptorOperands pid r
            = (do
                let a ← first adaptorOperands
                let dtype ← castUnrankedMemRefElementType v.getType
                let s ← first op.getIsSigned
                let r1 ← createRuntimePrintCall dead r pid op.getPrefix a dtype (s != 0) op.getHex
                pure (eraseOp r1 (.print op))))
    ∧ (1 < op.getNumOperands →
        usePrintf op = .error .operandCount
        ∧ ∀ (dead : DeadBuffer) adaptorOperands pid r,
          PrintOpConversion.matchAndRewrite dead op adaptorOperands pid r = .error .operandCount) :=
  usePrintf_classify op

/-- Witness for C9: an operand of unranked-memref type is not classified as
scalar, and two operands fail the operand-count assertion. -/
theorem usePrintf_spec_witness :
    usePrintf ⟨"x", false, [.ssa 0 (.unrankedMemRef i32_ty)], [1]⟩ = .ok false
    ∧ usePrintf ⟨"x", false, [.ssa 0 i32_ty, .ssa 1 i32_ty], [1, 1]⟩ = .error .operandCount :=
  ⟨((usePrintf_spec ⟨"x", false, [.ssa 0 (.unrankedMemRef i32_ty)], [1]⟩).2.1
      (.ssa 0 (.unrankedMemRef i32_ty)) rfl (by decide)).1,
   ((usePrintf_spec ⟨"x", false, [.ssa 0 i32_ty, .ssa 1 i32_ty], [1, 1]⟩).2.2
      (by decide)).1⟩

/-- C8: for a print with a non-empty prefix and a coordinate triple with tokens
`t0`, `t1`, `t2`, the scalar branch of the pattern interns, under a fresh name,
the text `(t0, t1, t2)` followed by the prefix, by the token of the converted
operand under the op's hex flag, no width and the op's signedness flag when the
op has an operand, by a newline and by one null byte; it emits one call to
`printf` whose arguments are the format string pointer, the three coordinates,
and the promoted operand when present; and it erases the op.  Without an operand
the text is `(t0, t1, t2)<prefix>\n` and nothing follows the coordinates.  The
call builder itself does the same for every operand and flags it is given. -/
theorem scalar_print_lowering (dead : DeadBuffer) (op : PrintOp)
    (pid : Value × Value × Value) (r : Rewriter) (t0 t1 t2 : String)
    (hne : op.getPrefix ≠ "")
    (h0 : getFormatSubstr pid.1 false none false = .ok t0)
    (h1 : getFormatSubstr pid.2.1 false none false = .ok t1)
    (h2 : getFormatSubstr pid.2.2 false none false = .ok t2)
    (hsym : symbolIsFuncOrAbsent r.moduleBody "printf" = true) :
    (op.getOperands = [] → ∀ adaptorOperands, ∃ name f pre,
      lookupSymbol r.moduleBody name = none ∧ f.symName = "printf"
      ∧ DeclOutcome r.moduleBody printfDecl f pre
      ∧ PrintOpConversion.matchAndRewrite dead op adaptorOperands pid r
        = .ok { moduleBody := pre ++ .global name
                  ("(" ++ t0 ++ ", " ++ t1 ++ ", " ++ t2 ++ ")" ++ op.getPrefix ++ "\n"
                    ++ "\x00") :: r.moduleBody,
                calls := r.calls ++ [⟨f, [.stringStart name, pid.1, pid.2.1, pid.2.2]⟩],
                erased := r.erased ++ [.print op] })
    ∧ (∀ v a arest s srest tok, op.getOperands = [v] →
      (v.getType.isIntOrIndexOrFloat || v.getType.isTritonPointer) = true →
      op.getIsSigned = s :: srest →
      getFormatSubstr a op.getHex none (s != 0) = .ok tok →
      ∃ p name f pre, printfPromoteValue a = .ok p
        ∧ lookupSymbol r.moduleBody name = none ∧ f.symName = "printf"
        ∧ DeclOutcome r.moduleBody printfDecl f pre
        ∧ PrintOpConversion.matchAndRewrite dead op (a :: arest) pid r
          = .ok { moduleBody := pre ++ .global name
                    ("(" ++ t0 ++ ", " ++ t1 ++ ", " ++ t2 ++ ")" ++ op.getPrefix ++ tok
                      ++ "\n" ++ "\x00") :: r.moduleBody,
                  calls := r.calls ++ [⟨f, [.stringStart name, pid.1, pid.2.1, pid.2.2, p]⟩],
                  erased := r.erased ++ [.print op] })
    ∧ (∀ a hex isSigned tok, getFormatSubstr a hex none isSigned = .ok tok →
      ∃ p name f pre, printfPromoteValue a = .ok p
        ∧ lookupSymbol r.moduleBody name = none ∧ f.symName = "printf"
        ∧ DeclOutcome r.moduleBody printfDecl f pre
        ∧ createRuntimePrintScalarCall r pid op.getPrefix (some a) hex isSigned
          = .ok { moduleBody := pre ++ .global name
                    ("(" ++ t0 ++ ", " ++ t1 ++ ", " ++ t2 ++ ")" ++ op.getPrefix ++ tok
                      ++ "\n" ++ "\x00") :: r.moduleBody,
                  calls := r.calls ++ [⟨f, [.stringStart name, pid.1, pid.2.1, pid.2.2, p]⟩],
                  erased := r.erased }) := by
  refine ⟨?_, ?_, ?_⟩
  · intro hop adaptorOperands
    obtain ⟨name, f, pre, hfree, hname, hout, hres⟩ :=
      (createRuntimePrintScalarCall_spec r pid op.getPrefix false false t0 t1 t2 hne h0 h1 h2
        hsym).1
    refine ⟨name, f, pre, hfree, hname, hout, ?_⟩
    simp [PrintOpConversion.matchAndRewrite, usePrintf, PrintOp.getNumOperands, hop, hres,
      bind, Except.bind, pure, Except.pure, eraseOp]
  · intro v a arest s srest tok hop hty hsg htok
    obtain ⟨p, name, f, pre, hp, hfree, hname, hout, hres⟩ :=
      (createRuntimePrintScalarCall_spec r pid op.getPrefix op.getHex (s != 0) t0 t1 t2 hne h0
        h1 h2 hsym).2 a tok htok
    refine ⟨p, name, f, pre, hp, hfree, hname, hout, ?_⟩
    simp [PrintOpConversion.matchAndRewrite, usePrintf, PrintOp.getNumOperands, hop, hty, hsg,
      hres, first, bind, Except.bind, pure, Except.pure, eraseOp]
  · intro a hex isSigned tok htok
    exact (createRuntimePrintScalarCall_spec r pid op.getPrefix hex isSigned t0 t1 t2 hne h0
      h1 h2 hsym).2 a tok htok

/-- Witness for C8: in an empty module, the pattern lowers a print of a signed
8-bit operand with the prefix `x: ` to one `printf` call whose format string is
`(%u, %u, %u)x: %i\n` plus the null byte and whose last argument is the sign
extension of the converted operand. -/
theorem scalar_print_lowering_witness :
    ∃ p name f pre, printfPromoteValue (.ssa 4 (.integer 8 .Signless)) = .ok p
      ∧ lookupSymbol emptyRewriter.moduleBody name = none ∧ f.symName = "printf"
      ∧ DeclOutcome emptyRewriter.moduleBody printfDecl f pre
      ∧ PrintOpConversion.matchAndRewrite intactBuffer
          ⟨"x: ", false, [.ssa 3 (.integer 8 .Signed)], [1]⟩
          (.ssa 4 (.integer 8 .Signless) :: []) samplePid emptyRewriter
        = .ok { moduleBody := pre ++ .global name
                  ("(" ++ "%u" ++ ", " ++ "%u" ++ ", " ++ "%u" ++ ")" ++ "x: " ++ "%i"
                    ++ "\n" ++ "\x00") :: emptyRewriter.moduleBody,
                calls := emptyRewriter.calls ++ [⟨f, [.stringStart name, samplePid.1,
                  samplePid.2.1, samplePid.2.2, p]⟩],
                erased := emptyRewriter.erased
                  ++ [.print ⟨"x: ", false, [.ssa 3 (.integer 8 .Signed)], [1]⟩] } :=
  (scalar_print_lowering intactBuffer ⟨"x: ", false, [.ssa 3 (.integer 8 .Signed)], [1]⟩
    samplePid emptyRewriter "%u" "%u" "%u" (by decide) (by decide) (by decide) (by decide)
    (by decide)).2.1 (.ssa 3 (.integer 8 .Signed)) (.ssa 4 (.integer 8 .Signless)) [] 1 []
    "%i" rfl (by decide) rfl (by decide)

/-- C10: a print of one unranked-memref operand with a non-empty prefix emits
exactly one call, to `triton_print_unranked_memref`, with the arguments
`[c0, c1, c2, prefixPtr, dataPtr, elementBitWidth, isInteger, isSigned, isHex]`:
the coordinates are the three program ids of the enclosing function, `prefixPtr`
points to the constant interned for the prefix, `dataPtr` is the converted
operand, and the last four are i32 constants for the bit width of the element
type, 1 or 0 for an integer element type, and the op's flags as 0/1.  The types
of the nine arguments are, position by position, the nine parameter types of the
declaration `(i32, i32, i32, ptr, {i64, ptr}, i32, i32, i32, i32) -> i32`,
non-variadic, which is the callee whenever the lowering had to create it.  The
text of the interned prefix is what `makeNullTerminatedString` yields. -/
theorem vector_print_call (dead : DeadBuffer) (op : PrintOp) (parent : ParentFunc)
    (r : Rewriter) (v : Value) (dataId : Nat) (dtype : Ty) (s : Int) (w : Nat)
    (hne : op.getPrefix ≠ "")
    (hop : op.getOperands = [v]) (hv : v.getType = .unrankedMemRef dtype)
    (hs : op.getIsSigned = [s])
    (hw : dtype.getIntOrFloatBitWidth = .ok w)
    (hsym : symbolIsFuncOrAbsent r.moduleBody "triton_print_unranked_memref" = true) :
    ∃ name f pre args,
      PrintOpConversion.matchAndRewrite dead op [convertedMemRefOperand dataId]
          (pidOf parent) r
        = .ok { moduleBody := pre ++ .global name
                  (ensureNullTerminated (makeNullTerminatedString dead op.getPrefix))
                  :: r.moduleBody,
                calls := r.calls ++ [⟨f, args⟩],
                erased := r.erased ++ [.print op] }
      ∧ args = [getPid parent 0, getPid parent 1, getPid parent 2, .stringStart name,
          convertedMemRefOperand dataId, .i32_val (w : Int),
          .i32_val (if dtype.isInteger then 1 else 0), .i32_val (if s ≠ 0 then 1 else 0),
          .i32_val (if op.getHex then 1 else 0)]
      ∧ f.symName = "triton_print_unranked_memref"
      ∧ DeclOutcome r.moduleBody printMemrefDecl f pre
      ∧ args.length = 9
      ∧ args.map Value.getType = printMemrefDecl.type.params
      ∧ printMemrefDecl.type
        = ⟨.integer 32 .Signless,
            [.integer 32 .Signless, .integer 32 .Signless, .integer 32 .Signless, .llvmPointer,
             .llvmStruct (.integer 64 .Signless) .llvmPointer, .integer 32 .Signless,
             .integer 32 .Signless, .integer 32 .Signless, .integer 32 .Signless], false⟩ := by
  have hu : usePrintf op = .ok false := by
    have hnot : ¬ (v.getType.isInteger = true ∨ v.getType.isIndex = true
        ∨ v.getType.isFloat = true ∨ v.getType.isTritonPointer = true) := by
      simp [hv, Ty.isInteger, Ty.isIndex, Ty.isFloat, Ty.isTritonPointer]
    exact ((usePrintf_classify op).2.1 v hop hnot).1
  obtain ⟨name, f, pre, _, _, hout, hres⟩ := createRuntimePrintCall_ok dead r (pidOf parent)
    op.getPrefix (convertedMemRefOperand dataId) dtype (s != 0) op.getHex w hne hw hsym
  have hname : f.symName = "triton_print_unranked_memref" := by
    rcases hout with ⟨_, hl⟩ | ⟨_, _, hf⟩
    · exact (lookupSymbol_some _ _ _ hl).2
    · rw [hf]; rfl
  refine ⟨name, f, pre, _, ?_, rfl, hname, hout, rfl, rfl, rfl⟩
  simp only [PrintOpConversion.matchAndRewrite, hu, hop, hv, hs, hres, first,
    castUnrankedMemRefElementType, bind, Except.bind, pure, Except.pure, eraseOp,
    Bool.false_eq_true, if_false]
  by_cases hs0 : s = 0 <;> simp [hs0, pidOf]

/-- Witness for C10: printing an unranked buffer of 16-bit integers in an empty
module. -/
theorem vector_print_call_witness :
    ∃ name f pre args,
      PrintOpConversion.matchAndRewrite intactBuffer
          ⟨"x: ", false, [.ssa 3 (.unrankedMemRef (.integer 16 .Signless))], [1]⟩
          [convertedMemRefOperand 4] (pidOf ⟨fun axis => axis⟩) emptyRewriter
        = .ok { moduleBody := pre ++ .global name
                  (ensureNullTerminated (makeNullTerminatedString intactBuffer "x: "))
                  :: [],
                calls := [] ++ [⟨f, args⟩],
                erased := [] ++ [.print
                  ⟨"x: ", false, [.ssa 3 (.unrankedMemRef (.integer 16 .Signless))], [1]⟩] }
      ∧ args = [getPid ⟨fun axis => axis⟩ 0, getPid ⟨fun axis => axis⟩ 1,
          getPid ⟨fun axis => axis⟩ 2, .stringStart name,
          convertedMemRefOperand 4, .i32_val ((16 : Nat) : Int),
          .i32_val (if (Ty.integer 16 .Signless).isInteger then 1 else 0),
          .i32_val (if (1 : Int) ≠ 0 then 1 else 0),
          .i32_val (if false then 1 else 0)]
      ∧ f.symName = "triton_print_unranked_memref"
      ∧ DeclOutcome [] printMemrefDecl f pre
      ∧ args.length = 9
      ∧ args.map Value.getType = printMemrefDecl.type.params
      ∧ printMemrefDecl.type
        = ⟨.integer 32 .Signless,
            [.integer 32 .Signless, .integer 32 .Signless, .integer 32 .Signless, .llvmPointer,
             .llvmStruct (.integer 64 .Signless) .llvmPointer, .integer 32 .Signless,
             .integer 32 .Signless, .integer 32 .Signless, .integer 32 .Signless], false⟩ :=
  vector_print_call intactBuffer
    ⟨"x: ", false, [.ssa 3 (.unrankedMemRef (.integer 16 .Signless))], [1]⟩
    ⟨fun axis => axis⟩ emptyRewriter
    (.ssa 3 (.unrankedMemRef (.integer 16 .Signless))) 4 (.integer 16 .Signless) 1 16
    (by decide) rfl rfl rfl rfl (by decide)

/-! ## One declaration per runtime symbol -/

/-- C7: starting from a module in which no two symbols share a name, every
sequence of print, assert and barrier lowerings that runs to completion keeps
that invariant; each print or assert site emits one call; for every emitted call
the module ends with exactly one operation named like the callee, it is the
callee itself (so all calls to one symbol share one declaration), it is one of
the declarations created by the lowering when the symbol was absent at the
start, and a further `getOrAdd...Decl` returns it and leaves the module
unchanged. -/
theorem lowerAll_single_declaration (dead : DeadBuffer) (sites : List DebugSite)
    (r r2 : Rewriter)
    (hnodup : (symbolNames r.moduleBody).Nodup)
    (h : lowerAll dead sites r = .ok r2) :
    (symbolNames r2.moduleBody).Nodup
    ∧ ∃ new, r2.calls = r.calls ++ new
      ∧ new.length = (sites.map DebugSite.callCount).sum
      ∧ (∀ c ∈ new,
          c.callee.symName ∈ ["printf", "triton_print_unranked_memref", "triton_assert"]
          ∧ (symbolNames r2.moduleBody).count c.callee.symName = 1
          ∧ lookupSymbol r2.moduleBody c.callee.symName = some (.llvmFunc c.callee)
          ∧ (lookupSymbol r.moduleBody c.callee.symName = none → c.callee ∈ runtimeDecls)
          ∧ (c.callee.symName = "printf" →
              getOrAddPrintFuncDecl r2 true = .ok (c.callee, r2))
          ∧ (c.callee.symName = "triton_print_unranked_memref" →
              getOrAddPrintMemrefFuncDecl r2 = .ok (c.callee, r2))
          ∧ (c.callee.symName = "triton_assert" →
              getAssertFuncDecl r2 = .ok (c.callee, r2)))
      ∧ (∀ c1 ∈ new, ∀ c2 ∈ new,
          c1.callee.symName = c2.callee.symName → c1.callee = c2.callee) := by
  obtain ⟨new, ⟨hext, hcalls, hmem⟩, hlen⟩ := lowerAll_step dead sites r r2 h
  have hnd2 := hext.1 hnodup
  refine ⟨hnd2, new, hcalls, hlen, ?_, ?_⟩
  · intro c hc
    obtain ⟨⟨canon, hcanon, hname⟩, hl⟩ := hmem c hc
    refine ⟨?_, ?_, hl, ?_, ?_, ?_, ?_⟩
    · simp only [runtimeDecls, List.mem_cons, List.mem_singleton, List.not_mem_nil,
        or_false] at hcanon
      rcases hcanon with hq | hq | hq <;> rw [hname, hq] <;>
        simp [printfDecl, printMemrefDecl, assertDecl]
    · apply List.count_eq_one_of_mem hnd2
      obtain ⟨hin, hnm⟩ := lookupSymbol_some _ _ _ hl
      exact List.mem_map.2 ⟨_, hin, hnm⟩
    · intro habs
      rcases hext.2.2 _ _ hl with h1 | ⟨k, v, h1⟩ | ⟨f, hf, h1⟩
      · rw [habs] at h1; exact absurd h1 (by simp)
      · exact absurd h1 (by simp)
      · simp only [ModuleEntry.llvmFunc.injEq] at h1
        rw [h1]; exact hf
    · intro hp
      rw [hp] at hl
      simp [getOrAddPrintFuncDecl, hl, castLLVMFuncOp, bind, Except.bind, pure, Except.pure]
    · intro hp
      rw [hp] at hl
      simp [getOrAddPrintMemrefFuncDecl, hl, castLLVMFuncOp, bind, Except.bind, pure,
        Except.pure]
    · intro hp
      rw [hp] at hl
      simp [getAssertFuncDecl, hl, castLLVMFuncOp, bind, Except.bind, pure, Except.pure]
  · intro c1 hc1 c2 hc2 heq
    have h1 := (hmem c1 hc1).2
    have h2 := (hmem c2 hc2).2
    rw [heq, h2] at h1
    simp only [Option.some.injEq, ModuleEntry.llvmFunc.injEq] at h1
    exact h1.symm

/-- Witness for C7: two prints in an empty module leave one `printf`
declaration, used by both calls. -/
theorem lowerAll_single_declaration_witness :
    (symbolNames twoPrintResult.moduleBody).Nodup
    ∧ ∃ new, twoPrintResult.calls = (Rewriter.mk [] [] []).calls ++ new
      ∧ new.length = (twoPrintSites.map DebugSite.callCount).sum
      ∧ (∀ c ∈ new,
          c.callee.symName ∈ ["printf", "triton_print_unranked_memref", "triton_assert"]
          ∧ (symbolNames twoPrintResult.moduleBody).count c.callee.symName = 1
          ∧ lookupSymbol twoPrintResult.moduleBody c.callee.symName = some (.llvmFunc c.callee)
          ∧ (lookupSymbol (Rewriter.mk [] [] []).moduleBody c.callee.symName = none →
              c.callee ∈ runtimeDecls)
          ∧ (c.callee.symName = "printf" →
              getOrAddPrintFuncDecl twoPrintResult true = .ok (c.callee, twoPrintResult))
          ∧ (c.callee.symName = "triton_print_unranked_memref" →
              getOrAddPrintMemrefFuncDecl twoPrintResult = .ok (c.callee, twoPrintResult))
          ∧ (c.callee.symName = "triton_assert" →
              getAssertFuncDecl twoPrintResult = .ok (c.callee, twoPrintResult)))
      ∧ (∀ c1 ∈ new, ∀ c2 ∈ new,
          c1.callee.symName = c2.callee.symName → c1.callee = c2.callee) :=
  lowerAll_single_declaration intactBuffer twoPrintSites ⟨[], [], []⟩ twoPrintResult
    (by decide) (by decide)

/-! ## The assert pattern -/

theorem unwrapCallSites_wrapCallSites (callers : List Location) (filename : String)
    (line col : Nat) :
    unwrapCallSites (wrapCallSites callers (.fileLineCol filename line col))
      = .fileLineCol filename line col := by
  induction callers with
  | nil => rfl
  | cons caller rest ih => simpa [wrapCallSites, unwrapCallSites] using ih

/-- The result of the assert pattern, spelled out: three fresh string constants
(message, file name, function name) at the head of the module, the declaration
in front of them when it had to be created, one call with eight arguments
appended, and the operation erased. -/
theorem assertOp_ok (dead : DeadBuffer) (op : AssertOp) (pid : Value × Value × Value)
    (r : Rewriter)
    (hsym : symbolIsFuncOrAbsent r.moduleBody "triton_assert" = true) :
    ∃ nmsg nfile nfunc f pre,
      lookupSymbol r.moduleBody nmsg = none
      ∧ nfile ≠ nmsg ∧ nfunc ≠ nfile ∧ nfunc ≠ nmsg
      ∧ DeclOutcome r.moduleBody assertDecl f pre
      ∧ AssertOpConversion.matchAndRewrite dead op pid r
        = .ok { moduleBody := pre ++ .global nfunc (ensureNullTerminated (makeNullTerminatedString dead "unknown"))
                  :: .global nfile (ensureNullTerminated (makeNullTerminatedString dead
                    (fileAndLine (unwrapCallSites op.getLoc)).fst))
                  :: .global nmsg (ensureNullTerminated (makeNullTerminatedString dead op.getMessage)) :: r.moduleBody,
                calls := r.calls ++ [⟨f, [pid.1, pid.2.1, pid.2.2, op.getCondition,
                  .stringStart nmsg, .stringStart nfile,
                  .i32_val (fileAndLine (unwrapCallSites op.getLoc)).2,
                  .stringStart nfunc]⟩],
                erased := r.erased ++ [.assert op] } := by
  obtain ⟨nmsg, ⟨n1, hn1⟩, hfree1, hadd1⟩ := addStringToModule_ok r "assertMessage_"
    (makeNullTerminatedString dead op.getMessage)
  obtain ⟨nfile, ⟨n2, hn2⟩, hfree2, hadd2⟩ := addStringToModule_ok
    { r with moduleBody := .global nmsg (ensureNullTerminated (makeNullTerminatedString dead op.getMessage)) :: r.moduleBody }
    "assertFile_" (makeNullTerminatedString dead (fileAndLine (unwrapCallSites op.getLoc)).1)
  obtain ⟨nfunc, ⟨n3, hn3⟩, hfree3, hadd3⟩ := addStringToModule_ok
    { r with moduleBody := .global nfile
                (ensureNullTerminated (makeNullTerminatedString dead
                    (fileAndLine (unwrapCallSites op.getLoc)).fst))
                :: .global nmsg (ensureNullTerminated (makeNullTerminatedString dead op.getMessage)) :: r.moduleBody }
    "assertFunc_" (makeNullTerminatedString dead "unknown")
  have hm : nmsg ≠ "triton_assert" := by rw [hn1]; exact key_append_ne _ _ _ (by decide)
  have hf : nfile ≠ "triton_assert" := by rw [hn2]; exact key_append_ne _ _ _ (by decide)
  have hg : nfunc ≠ "triton_assert" := by rw [hn3]; exact key_append_ne _ _ _ (by decide)
  have hfm : nfile ≠ nmsg := by
    intro heq
    rw [heq, lookupSymbol_cons] at hfree2
    simp [ModuleEntry.symName] at hfree2
  have hgf : nfunc ≠ nfile := by
    intro heq
    rw [heq, lookupSymbol_cons] at hfree3
    simp [ModuleEntry.symName] at hfree3
  have hgm : nfunc ≠ nmsg := by
    intro heq
    rw [heq, lookupSymbol_cons, lookupSymbol_cons] at hfree3
    simp [ModuleEntry.symName, hfm] at hfree3
  have hsym3 : symbolIsFuncOrAbsent (.global nfunc (ensureNullTerminated (makeNullTerminatedString dead "unknown"))
      :: .global nfile (ensureNullTerminated (makeNullTerminatedString dead
                    (fileAndLine (unwrapCallSites op.getLoc)).fst))
      :: .global nmsg (ensureNullTerminated (makeNullTerminatedString dead op.getMessage)) :: r.moduleBody) "triton_assert" = true := by
    rw [symbolIsFuncOrAbsent_cons_global _ _ _ _ hg, symbolIsFuncOrAbsent_cons_global _ _ _ _ hf,
      symbolIsFuncOrAbsent_cons_global _ _ _ _ hm]
    exact hsym
  obtain ⟨f, pre, hdecl, hout⟩ := getAssertFuncDecl_ok
    { r with moduleBody := .global nfunc (ensureNullTerminated (makeNullTerminatedString dead "unknown"))
                :: .global nfile (ensureNullTerminated (makeNullTerminatedString dead
                    (fileAndLine (unwrapCallSites op.getLoc)).fst))
                :: .global nmsg (ensureNullTerminated (makeNullTerminatedString dead op.getMessage)) :: r.moduleBody } hsym3
  have hout2 : DeclOutcome r.moduleBody assertDecl f pre := by
    unfold DeclOutcome at hout ⊢
    have hl : lookupSymbol (.global nfunc (ensureNullTerminated (makeNullTerminatedString dead "unknown"))
        :: .global nfile (ensureNullTerminated (makeNullTerminatedString dead
                    (fileAndLine (unwrapCallSites op.getLoc)).fst))
        :: .global nmsg (ensureNullTerminated (makeNullTerminatedString dead op.getMessage)) :: r.moduleBody) assertDecl.symName
        = lookupSymbol r.moduleBody assertDecl.symName := by
      exact (lookupSymbol_cons_global _ _ _ assertDecl.symName hg).trans
        ((lookupSymbol_cons_global _ _ _ assertDecl.symName hf).trans
          (lookupSymbol_cons_global _ _ _ assertDecl.symName hm))
    simpa only [hl] using hout
  refine ⟨nmsg, nfile, nfunc, f, pre, hfree1, hfm, hgf, hgm, hout2, ?_⟩
  have hfl : (match unwrapCallSites op.getLoc with
      | .fileLineCol filename line _ => (filename, unsignedToInt line)
      | _ => ("unknown", (0 : Int))) = fileAndLine (unwrapCallSites op.getLoc) := by
    cases unwrapCallSites op.getLoc <;> rfl
  unfold AssertOpConversion.matchAndRewrite
  simp only [hadd1, hfl, hadd2, hadd3, hdecl, bind, Except.bind,
    pure, Except.pure, call, eraseOp]

/-- C12 at a failing input: an assert whose location is a call site around an
unknown location, lowered in an empty module while the destroyed buffers of
`makeNullTerminatedString` have been overwritten.  The line number passed is 0,
but the constants interned for the file name and the function name hold the
bytes read from the destroyed buffers, not the text `unknown`. -/
theorem assert_unresolved_location_dead_text :
    AssertOpConversion.matchAndRewrite overwrittenBuffer
        ⟨.ssa 5 i1_ty, "boom", .callSite .otherLoc .otherLoc⟩ samplePid emptyRewriter
      = .ok ⟨[.llvmFunc assertDecl, .global "assertFunc_0" "????????\x00",
            .global "assertFile_0" "????????\x00", .global "assertMessage_0" "?????\x00"],
          [⟨assertDecl, [.ssa 0 i32_ty, .ssa 1 i32_ty, .ssa 2 i32_ty, .ssa 5 i1_ty,
            .stringStart "assertMessage_0", .stringStart "assertFile_0", .i32_val 0,
            .stringStart "assertFunc_0"]⟩],
          [.assert ⟨.ssa 5 i1_ty, "boom", .callSite .otherLoc .otherLoc⟩]⟩
    ∧ makeNullTerminatedString overwrittenBuffer "unknown" ≠ "unknown\x00" := by
  decide

/-- C13 at a failing input: an assert at `k.py:7:3` seen through two call sites.
Unwrapping any number of call sites ends at the file location, the call has the
eight arguments of the declared signature in order and the line 7, but the constant `filePtr` points to holds the bytes read
from the destroyed buffer of `makeNullTerminatedString`, not `k.py`; and a line
number of `2 ^ 31` reaches the call as a negative `int`. -/
theorem assert_resolved_location_dead_text :
    (∀ callers filename line col,
      unwrapCallSites (wrapCallSites callers (.fileLineCol filename line col))
        = .fileLineCol filename line col)
    ∧ assertDecl.type.params.length = 8
    ∧ AssertOpConversion.matchAndRewrite overwrittenBuffer
        ⟨.ssa 5 i1_ty, "boom",
          .callSite (.callSite (.fileLineCol "k.py" 7 3) .otherLoc) .otherLoc⟩
        samplePid emptyRewriter
      = .ok ⟨[.llvmFunc assertDecl, .global "assertFunc_0" "????????\x00",
            .global "assertFile_0" "?????\x00", .global "assertMessage_0" "?????\x00"],
          [⟨assertDecl, [.ssa 0 i32_ty, .ssa 1 i32_ty, .ssa 2 i32_ty, .ssa 5 i1_ty,
            .stringStart "assertMessage_0", .stringStart "assertFile_0", .i32_val 7,
            .stringStart "assertFunc_0"]⟩],
          [.assert ⟨.ssa 5 i1_ty, "boom",
            .callSite (.callSite (.fileLineCol "k.py" 7 3) .otherLoc) .otherLoc⟩]⟩
    ∧ makeNullTerminatedString overwrittenBuffer "k.py" ≠ "k.py\x00"
    ∧ unsignedToInt 2147483648 = -2147483648 := by
  refine ⟨fun callers filename line col =>
    unwrapCallSites_wrapCallSites callers filename line col, ?_⟩
  decide

/-- C20 at a failing input: an assert with the resolved location `k.py:7:3`.  The
text handed to `makeNullTerminatedString` for the function name is the literal
`unknown`, but the constant interned for it, whose pointer is the last argument
of the call, holds the bytes read from the destroyed buffer. -/
theorem assert_function_name_dead_text :
    AssertOpConversion.matchAndRewrite overwrittenBuffer
        ⟨.ssa 5 i1_ty, "stop", .fileLineCol "k.py" 7 3⟩ samplePid emptyRewriter
      = .ok ⟨[.llvmFunc assertDecl, .global "assertFunc_0" "????????\x00",
            .global "assertFile_0" "?????\x00", .global "assertMessage_0" "?????\x00"],
          [⟨assertDecl, [.ssa 0 i32_ty, .ssa 1 i32_ty, .ssa 2 i32_ty, .ssa 5 i1_ty,
            .stringStart "assertMessage_0", .stringStart "assertFile_0", .i32_val 7,
            .stringStart "assertFunc_0"]⟩],
          [.assert ⟨.ssa 5 i1_ty, "stop", .fileLineCol "k.py" 7 3⟩]⟩
    ∧ lookupSymbol [.llvmFunc assertDecl, .global "assertFunc_0" "????????\x00",
          .global "assertFile_0" "?????\x00", .global "assertMessage_0" "?????\x00"]
        "assertFunc_0" ≠ some (.global "assertFunc_0" "unknown\x00") := by
  decide

/-! ## Rejected prints, barriers, null termination, unsupported types -/

/-- C11: a print whose prefix is empty is rejected and emits no call: both call
builders fail with the empty-prefix precondition whatever their other arguments
are, and so does the pattern, on the scalar path (no operand, or one scalar or
pointer operand) and on the vector path (one unranked-memref operand); for every
operation with an empty prefix the pattern returns a failure. -/
theorem empty_prefix_rejected (dead : DeadBuffer) (pid : Value × Value × Value)
    (r : Rewriter) :
    (∀ arg hex isSigned,
      createRuntimePrintScalarCall r pid "" arg hex isSigned = .error .emptyPrefix)
    ∧ (∀ ptr dtype isSigned hex,
      createRuntimePrintCall dead r pid "" ptr dtype isSigned hex = .error .emptyPrefix)
    ∧ (∀ hex isSigned adaptorOperands,
      PrintOpConversion.matchAndRewrite dead ⟨"", hex, [], isSigned⟩ adaptorOperands pid r
        = .error .emptyPrefix)
    ∧ (∀ hex v a arest s srest,
      (v.getType.isIntOrIndexOrFloat || v.getType.isTritonPointer) = true →
      PrintOpConversion.matchAndRewrite dead ⟨"", hex, [v], s :: srest⟩ (a :: arest) pid r
        = .error .emptyPrefix)
    ∧ (∀ hex v dtype a arest s srest, v.getType = .unrankedMemRef dtype →
      PrintOpConversion.matchAndRewrite dead ⟨"", hex, [v], s :: srest⟩ (a :: arest) pid r
        = .error .emptyPrefix)
    ∧ (∀ hex operands isSigned adaptorOperands, ∃ e,
      PrintOpConversion.matchAndRewrite dead ⟨"", hex, operands, isSigned⟩ adaptorOperands pid r
        = .error e) := by
  have hs : ∀ arg hex isSigned,
      createRuntimePrintScalarCall r pid "" arg hex isSigned = .error .emptyPrefix := by
    intro arg hex isSigned
    simp [createRuntimePrintScalarCall, String.isEmpty_iff]
  have hv : ∀ ptr dtype isSigned hex,
      createRuntimePrintCall dead r pid "" ptr dtype isSigned hex = .error .emptyPrefix := by
    intro ptr dtype isSigned hex
    simp [createRuntimePrintCall, String.isEmpty_iff]
  refine ⟨hs, hv, ?_, ?_, ?_, ?_⟩
  · intro hex isSigned adaptorOperands
    simp [PrintOpConversion.matchAndRewrite, usePrintf, PrintOp.getNumOperands, hs, bind,
      Except.bind]
  · intro hex v a arest s srest hty
    simp [PrintOpConversion.matchAndRewrite, usePrintf, PrintOp.getNumOperands, hty, hs, first,
      bind, Except.bind]
  · intro hex v dtype a arest s srest hty
    simp [PrintOpConversion.matchAndRewrite, usePrintf, PrintOp.getNumOperands, hty, hv, first,
      castUnrankedMemRefElementType, Ty.isIntOrIndexOrFloat, Ty.isIntOrFloat, Ty.isInteger,
      Ty.isFloat, Ty.isIndex, Ty.isTritonPointer, bind, Except.bind]
  · intro hex operands isSigned adaptorOperands
    cases hres : PrintOpConversion.matchAndRewrite dead ⟨"", hex, operands, isSigned⟩
        adaptorOperands pid r with
    | error e => exact ⟨e, rfl⟩
    | ok r2 =>
      exfalso
      unfold PrintOpConversion.matchAndRewrite at hres
      simp only [bind_eq_ok] at hres
      obtain ⟨scalar, _, h⟩ := hres
      cases scalar with
      | true =>
        simp only [if_true, bind_eq_ok] at h
        obtain ⟨r1, h1, _⟩ := h
        split at h1
        · simp [hs] at h1
        · simp only [bind_eq_ok] at h1
          obtain ⟨_, _, _, _, h1⟩ := h1
          simp [hs] at h1
      | false =>
        simp only [Bool.false_eq_true, if_false, bind_eq_ok] at h
        obtain ⟨_, _, _, _, _, _, _, _, r1, h1, _⟩ := h
        simp [hv] at h1

/-- Witness for C11: a print of one i32 operand with an empty prefix, and a print
of one unranked buffer with an empty prefix, in an empty module. -/
theorem empty_prefix_rejected_witness :
    PrintOpConversion.matchAndRewrite intactBuffer ⟨"", false, [.ssa 3 i32_ty], [1]⟩ [.ssa 3 i32_ty]
        samplePid emptyRewriter = .error .emptyPrefix
    ∧ PrintOpConversion.matchAndRewrite intactBuffer
        ⟨"", false, [.ssa 3 (.unrankedMemRef i32_ty)], [1]⟩
        [.ssa 4 (.llvmStruct i64_ty ptr_ty)] samplePid emptyRewriter = .error .emptyPrefix :=
  ⟨(empty_prefix_rejected intactBuffer samplePid emptyRewriter).2.2.2.1 false (.ssa 3 i32_ty)
      (.ssa 3 i32_ty) [] 1 [] (by decide),
   (empty_prefix_rejected intactBuffer samplePid emptyRewriter).2.2.2.2.1 false
      (.ssa 3 (.unrankedMemRef i32_ty)) i32_ty (.ssa 4 (.llvmStruct i64_ty ptr_ty)) [] 1 []
      rfl⟩

/-- C14: the barrier pattern succeeds in every rewriter state and for every
coordinate triple and operand list the framework passes along; it erases the
operation, emits no call, and leaves the module body (declarations and string
constants) unchanged. -/
theorem barrier_lowering (dead : DeadBuffer) (adaptorOperands : List Value) (pid : Value × Value × Value)
    (r : Rewriter) :
    BarrierOpConversion.matchAndRewrite r
      = .ok { moduleBody := r.moduleBody, calls := r.calls, erased := r.erased ++ [.barrier] }
    ∧ lowerSite dead ⟨.barrier, adaptorOperands, pid⟩ r
      = .ok { moduleBody := r.moduleBody, calls := r.calls,
              erased := r.erased ++ [.barrier] } := by
  constructor <;> rfl

theorem readDead_length (dead : DeadBuffer) (written : String) (n : Nat) :
    (readDead dead written n).length = n := by
  simp [readDead, String.length]

theorem makeNullTerminatedString_length (dead : DeadBuffer) (s : String) :
    (makeNullTerminatedString dead s).length = s.length + 1 := by
  simp [makeNullTerminatedString, readDead_length, nullTerminatedCopy, String.length_push]

/-- C15, as stated, fails for a string that already ends in a null byte: the
local buffer gets a second null byte and the reference returned has three
bytes, so whatever the destroyed buffer reads as, the result is not the
two-byte input. -/
theorem makeNullTerminatedString_appends_again :
    nullTerminatedCopy "a\x00" = "a\x00\x00"
    ∧ (makeNullTerminatedString intactBuffer "a\x00").length = 3
    ∧ ¬ ∃ dead : DeadBuffer, makeNullTerminatedString dead "a\x00" = "a\x00" := by
  refine ⟨by decide, by decide, ?_⟩
  rintro ⟨dead, h⟩
  have hl := makeNullTerminatedString_length dead "a\x00"
  rw [h] at hl
  exact absurd hl (by decide)

/-- C15 (amended): for every string `s`, `makeNullTerminatedString` forms in its
local buffer `s` followed by one more null byte, whether or not `s` already ends
in a null byte, and returns a reference of one byte more than `s`; the result is
never `s` itself.  Nothing is stated about the bytes read through the returned
reference. -/
theorem makeNullTerminatedString_spec (dead : DeadBuffer) (s : String) :
    (nullTerminatedCopy s).data = s.data ++ ['\x00']
    ∧ (makeNullTerminatedString dead s).length = s.length + 1
    ∧ makeNullTerminatedString dead s ≠ s := by
  refine ⟨by simp [nullTerminatedCopy, String.data_push],
    makeNullTerminatedString_length dead s, ?_⟩
  intro heq
  have hl := makeNullTerminatedString_length dead s
  rw [heq] at hl
  omega

/-- C17, as stated, fails in hex mode: for an index-typed value the failure is
the assertion of the bit-width query, which runs before the "not supported type"
assertion can be reached. -/
theorem getFormatSubstr_hex_index_failure :
    getFormatSubstr (.ssa 0 .index) true none false = .error .noBitWidth
    ∧ getFormatSubstr (.ssa 0 .index) true none false ≠ .error .notSupportedType := by
  decide

/-- C17 (amended): for a value whose type is neither the LLVM pointer type nor a
floating-point type nor an integer type, `getFormatSubstr` fails under all flags:
with the "not supported type" failure in non-hex mode and with the bit-width
assertion in hex mode; for every pointer, every bf16, f16, f32 or f64 value and
every integer value it returns a token. -/
theorem getFormatSubstr_failure_and_success (value : Value) (hex : Bool)
    (width : Option Int) (isSigned : Bool) :
    (value.getType.isLLVMPointer = false → value.getType.isFloat = false →
      value.getType.isInteger = false →
      getFormatSubstr value hex width isSigned
        = .error (if hex then .noBitWidth else .notSupportedType))
    ∧ ((value.getType.isLLVMPointer = true ∨ value.getType.isBF16 = true
        ∨ value.getType.isF16 = true ∨ value.getType.isF32 = true
        ∨ value.getType.isF64 = true ∨ value.getType.isInteger = true) →
      ∃ tok, getFormatSubstr value hex width isSigned = .ok tok) := by
  unfold getFormatSubstr
  constructor
  · intro hp hf hi
    cases hT : value.getType <;> cases hex <;>
      simp_all [Ty.isLLVMPointer, Ty.isFloat, Ty.isInteger, Ty.isBF16, Ty.isF16, Ty.isF32,
        Ty.isF64, Ty.getIntOrFloatBitWidth, bind, Except.bind]
  · intro h
    cases hT : value.getType with
    | integer w s =>
      cases hex <;> by_cases h64 : w = 64 <;>
        simp [h64, Ty.isLLVMPointer, Ty.isInteger, Ty.isBF16, Ty.isF16, Ty.isF32,
          Ty.isF64, Ty.getIntOrFloatBitWidth, bind, Except.bind]
    | float k =>
      cases k <;> cases hex <;>
        simp_all [Ty.isLLVMPointer, Ty.isFloat, Ty.isInteger, Ty.isBF16, Ty.isF16, Ty.isF32,
          Ty.isF64, Ty.getIntOrFloatBitWidth, bind, Except.bind]
    | llvmPointer => simp [Ty.isLLVMPointer]
    | _ =>
      simp_all [Ty.isLLVMPointer, Ty.isFloat, Ty.isInteger, Ty.isBF16, Ty.isF16, Ty.isF32,
        Ty.isF64]

/-- Witness for C17 (amended): a Triton pointer is rejected in non-hex mode with
"not supported type", and an unsigned 16-bit integer gets a token. -/
theorem getFormatSubstr_failure_and_success_witness :
    getFormatSubstr (.ssa 0 (.ttPointer i32_ty)) false none true
      = .error (if false then .noBitWidth else .notSupportedType)
    ∧ ∃ tok, getFormatSubstr (.ssa 0 (.integer 16 .Unsigned)) false none true = .ok tok :=
  ⟨(getFormatSubstr_failure_and_success (.ssa 0 (.ttPointer i32_ty)) false none true).1
      (by decide) (by decide) (by decide),
   (getFormatSubstr_failure_and_success (.ssa 0 (.integer 16 .Unsigned)) false none true).2
      (by decide)⟩

/-! ## Conversion specifiers and arguments -/

theorem countPercent_append (a b : String) :
    countPercent (a ++ b) = countPercent a + countPercent b := by
  simp [countPercent, String.data_append, List.count_append]

theorem digitChar_ne_percent (k : Nat) (hk : k < 10) : Nat.digitChar k ≠ '%' := by
  interval_cases k <;> decide

theorem toDigitsCore_no_percent (fuel : Nat) : ∀ (n : Nat) (ds : List Char),
    (∀ c ∈ ds, c ≠ '%') → ∀ c ∈ Nat.toDigitsCore 10 fuel n ds, c ≠ '%' := by
  induction fuel with
  | zero => intro n ds hds c hc; exact hds c (by simpa [Nat.toDigitsCore] using hc)
  | succ fuel ih =>
    intro n ds hds c hc
    have hcons : ∀ c ∈ Nat.digitChar (n % 10) :: ds, c ≠ '%' := by
      intro c hc
      rcases List.mem_cons.1 hc with h | h
      · rw [h]; exact digitChar_ne_percent _ (Nat.mod_lt _ (by decide))
      · exact hds c h
    simp only [Nat.toDigitsCore] at hc
    split at hc
    · exact hcons c hc
    · exact ih _ _ hcons c hc

theorem countPercent_toString_nat (n : Nat) : countPercent (toString n) = 0 := by
  have hd : (toString n).data = Nat.toDigits 10 n := rfl
  unfold countPercent
  rw [hd, List.count_eq_zero]
  intro hmem
  exact toDigitsCore_no_percent (n + 1) n [] (by simp) _ hmem rfl

theorem countPercent_toString_int (i : Int) : countPercent (toString i) = 0 := by
  cases i with
  | ofNat m => exact countPercent_toString_nat m
  | negSucc m =>
    have h : toString (Int.negSucc m) = "-" ++ toString (m + 1) := rfl
    rw [h, countPercent_append, countPercent_toString_nat]
    decide

/-- Every token `getFormatSubstr` returns contains exactly one `%`. -/
theorem countPercent_token (value : Value) (hex : Bool) (width : Option Int) (isSigned : Bool)
    (tok : String) (h : getFormatSubstr value hex width isSigned = .ok tok) :
    countPercent tok = 1 := by
  have hp : countPercent "%p" = 1 := by decide
  have hx : countPercent "0x%0" = 1 := by decide
  have hll : countPercent "ll" = 0 := by decide
  have hxx : countPercent "x" = 0 := by decide
  have hpc : countPercent "%" = 1 := by decide
  have hf : countPercent "f" = 0 := by decide
  have hlli : countPercent "lli" = 0 := by decide
  have hllu : countPercent "llu" = 0 := by decide
  have hi : countPercent "i" = 0 := by decide
  have hu : countPercent "u" = 0 := by decide
  have hpre0 : ∀ wd : Option Int, countPercent (match wd with
      | some n => "%" ++ toString n
      | none => "%") = 1 := by
    intro wd
    cases wd <;> simp [countPercent_append, countPercent_toString_int, hpc]
  have hpre := hpre0 width
  unfold getFormatSubstr at h
  by_cases hptr : value.getType.isLLVMPointer = true
  · simp only [hptr, if_true, Except.ok.injEq] at h
    rw [← h]; exact hp
  · simp only [hptr, Bool.false_eq_true, if_false] at h
    cases hex with
    | true =>
      simp only [if_true, bind_eq_ok, Except.ok.injEq] at h
      obtain ⟨w, _, h⟩ := h
      rw [← h]
      by_cases h32 : w > 32 <;>
        simp [h32, countPercent_append, countPercent_toString_nat, hx, hll, hxx]
    | false =>
      simp only [Bool.false_eq_true, if_false] at h
      by_cases hfl : (value.getType.isBF16 || value.getType.isF16 || value.getType.isF32
          || value.getType.isF64) = true
      · simp only [hfl, if_true, Except.ok.injEq] at h
        rw [← h, countPercent_append, hpre, hf]
      · simp only [hfl, Bool.false_eq_true, if_false] at h
        by_cases hint : value.getType.isInteger = true
        · simp only [hint, if_true, bind_eq_ok] at h
          obtain ⟨w, _, h⟩ := h
          by_cases h64 : w = 64
          · simp only [h64, if_true, Except.ok.injEq] at h
            rw [← h, countPercent_append, hpre]
            cases isSigned <;> simp [hlli, hllu]
          · simp only [h64, if_false, Except.ok.injEq] at h
            rw [← h, countPercent_append, hpre]
            cases isSigned <;> simp [hi, hu]
        · simp [hint] at h

/-- C18: for a non-empty prefix without `%`, i32 coordinates and an operand that
`getFormatSubstr` accepts, the number of `%` in the interned format string equals
the number of arguments that follow the format-string pointer in the `printf`
call: 3 without an operand, 4 with one; and every token `getFormatSubstr`
returns contains exactly one `%`. -/
theorem scalar_specifier_count (r : Rewriter) (pid : Value × Value × Value)
    (prefixStr : String) (hex isSigned : Bool) (s0 s1 s2 : Signedness)
    (hne : prefixStr ≠ "") (hpct : countPercent prefixStr = 0)
    (h0 : pid.1.getType = .integer 32 s0) (h1 : pid.2.1.getType = .integer 32 s1)
    (h2 : pid.2.2.getType = .integer 32 s2)
    (hsym : symbolIsFuncOrAbsent r.moduleBody "printf" = true) :
    (∃ name f pre text args,
      createRuntimePrintScalarCall r pid prefixStr none hex isSigned
        = .ok { moduleBody := pre ++ .global name text :: r.moduleBody,
                calls := r.calls ++ [⟨f, .stringStart name :: args⟩],
                erased := r.erased }
      ∧ countPercent text = args.length ∧ args.length = 3)
    ∧ (∀ a tok, getFormatSubstr a hex none isSigned = .ok tok →
      ∃ name f pre text args,
        createRuntimePrintScalarCall r pid prefixStr (some a) hex isSigned
          = .ok { moduleBody := pre ++ .global name text :: r.moduleBody,
                  calls := r.calls ++ [⟨f, .stringStart name :: args⟩],
                  erased := r.erased }
        ∧ countPercent text = args.length ∧ args.length = 4)
    ∧ (∀ v hx width sg tok, getFormatSubstr v hx width sg = .ok tok →
      countPercent tok = 1) := by
  have hcoord : ∀ (v : Value) (s : Signedness), v.getType = .integer 32 s →
      getFormatSubstr v false none false = .ok "%u" := by
    intro v s hv
    simp [getFormatSubstr, hv, Ty.isLLVMPointer, Ty.isBF16, Ty.isF16, Ty.isF32, Ty.isF64,
      Ty.isInteger, Ty.getIntOrFloatBitWidth, bind, Except.bind]
  have hc0 := hcoord _ _ h0
  have hc1 := hcoord _ _ h1
  have hc2 := hcoord _ _ h2
  have hlp : countPercent "(" = 0 := by decide
  have hu : countPercent "%u" = 1 := by decide
  have hcm : countPercent ", " = 0 := by decide
  have hrp : countPercent ")" = 0 := by decide
  have hnl : countPercent "\n" = 0 := by decide
  have hz : countPercent "\x00" = 0 := by decide
  have h3 : countPercent "(%u, %u, %u)" = 3 := by decide
  refine ⟨?_, ?_, fun v hx width sg tok h => countPercent_token v hx width sg tok h⟩
  · obtain ⟨name, f, pre, _, _, _, hres⟩ := createRuntimePrintScalarCall_ok r pid
      prefixStr none hex isSigned "%u" "%u" "%u" "" [] hne hc0 hc1 hc2
      (Or.inl ⟨rfl, rfl, rfl⟩) hsym
    refine ⟨name, f, pre, _, [pid.1, pid.2.1, pid.2.2], by simpa using hres, ?_, rfl⟩
    simp [countPercent_append, hlp, hu, hcm, hrp, hnl, hz, h3, hpct]
  · intro a tok htok
    obtain ⟨p, hp⟩ := printfPromoteValue_ok_of_format a hex isSigned none tok htok
    obtain ⟨name, f, pre, _, _, _, hres⟩ := createRuntimePrintScalarCall_ok r pid
      prefixStr (some a) hex isSigned "%u" "%u" "%u" tok [p] hne hc0 hc1 hc2
      (Or.inr ⟨a, p, rfl, htok, hp, rfl⟩) hsym
    refine ⟨name, f, pre, _, [pid.1, pid.2.1, pid.2.2, p], by simpa using hres, ?_, rfl⟩
    simp [countPercent_append, hlp, hu, hcm, hrp, hnl, hz, h3, hpct,
      countPercent_token a hex none isSigned tok htok]

/-- Witness for C18: in an empty module, with the prefix `x: `, the format
string of a print without operand has three `%` for three arguments, and with an
accepted operand four `%` for four arguments. -/
theorem scalar_specifier_count_witness :
    (∃ name f pre text args,
      createRuntimePrintScalarCall emptyRewriter samplePid "x: " none false true
        = .ok { moduleBody := pre ++ .global name text :: emptyRewriter.moduleBody,
                calls := emptyRewriter.calls ++ [⟨f, .stringStart name :: args⟩],
                erased := emptyRewriter.erased }
      ∧ countPercent text = args.length ∧ args.length = 3)
    ∧ (∀ a tok, getFormatSubstr a false none true = .ok tok →
      ∃ name f pre text args,
        createRuntimePrintScalarCall emptyRewriter samplePid "x: " (some a) false true
          = .ok { moduleBody := pre ++ .global name text :: emptyRewriter.moduleBody,
                  calls := emptyRewriter.calls ++ [⟨f, .stringStart name :: args⟩],
                  erased := emptyRewriter.erased }
        ∧ countPercent text = args.length ∧ args.length = 4)
    ∧ (∀ v hx width sg tok, getFormatSubstr v hx width sg = .ok tok →
      countPercent tok = 1) :=
  scalar_specifier_count emptyRewriter samplePid "x: " false true .Signless .Signless
    .Signless (by decide) (by decide) rfl rfl rfl (by decide)

/-! ## Promotion and the printed integer -/

/-- C19 at a failing input: a signless 8-bit operand with bit pattern 255,
printed in non-hex mode with the signedness flag off.  The token in the format
string is `%u`, the argument is the sign extension of the operand, whose 32-bit
pattern is 4294967295; read as unsigned that is 4294967295, while the operand
under the flag denotes 255. -/
theorem promoted_unsigned_operand_misread :
    createRuntimePrintScalarCall emptyRewriter samplePid "x: "
        (some (.ssa 3 (.integer 8 .Signless))) false false
      = .ok ⟨[.llvmFunc printfDecl, .global "printfFormat_0" "(%u, %u, %u)x: %u\n\x00"],
          [⟨printfDecl, [.stringStart "printfFormat_0", .ssa 0 i32_ty, .ssa 1 i32_ty,
            .ssa 2 i32_ty, .sext i32_ty (.ssa 3 (.integer 8 .Signless))]⟩], []⟩
    ∧ getFormatSubstr (.ssa 3 (.integer 8 .Signless)) false none false = .ok "%u"
    ∧ (Value.sext i32_ty (.ssa 3 (.integer 8 .Signless))).intBits (fun _ => 255)
      = some 4294967295
    ∧ printedInteger "%u" 4294967295 = some 4294967295
    ∧ operandInteger false 8 255 = 255
    ∧ printedInteger "%u" 4294967295 ≠ some (operandInteger false 8 255) := by
  decide

/-! ## Where declarations are placed -/

theorem prepends_refl (b : List ModuleEntry) : Prepends b b := ⟨[], rfl⟩

theorem prepends_trans {b1 b2 b3 : List ModuleEntry} (h12 : Prepends b1 b2)
    (h23 : Prepends b2 b3) : Prepends b1 b3 := by
  obtain ⟨a1, h1⟩ := h12
  obtain ⟨a2, h2⟩ := h23
  exact ⟨a2 ++ a1, by rw [h2, h1, List.append_assoc]⟩

theorem addStringToModule_prepends (r r1 : Rewriter) (key content : String) (v : Value)
    (h : addStringToModule r key content = .ok (v, r1)) :
    Prepends r.moduleBody r1.moduleBody := by
  obtain ⟨name, _, _, hadd⟩ := addStringToModule_ok r key content
  rw [hadd] at h
  simp only [Except.ok.injEq, Prod.mk.injEq] at h
  obtain ⟨_, hr⟩ := h
  subst hr
  exact ⟨[.global name (ensureNullTerminated content)], rfl⟩

theorem declLookup_prepends (canon : LLVMFuncOp) (r : Rewriter) (f : LLVMFuncOp)
    (r1 : Rewriter)
    (h : (match lookupSymbol r.moduleBody canon.symName with
        | some funcOp => (do
          let f ← castLLVMFuncOp funcOp
          pure (f, r))
        | none => Except.ok (canon, { r with moduleBody := .llvmFunc canon :: r.moduleBody }))
      = .ok (f, r1)) :
    Prepends r.moduleBody r1.moduleBody := by
  cases hl : lookupSymbol r.moduleBody canon.symName with
  | none =>
    simp only [hl, Except.ok.injEq, Prod.mk.injEq] at h
    obtain ⟨_, hr⟩ := h
    subst hr
    exact ⟨[.llvmFunc canon], rfl⟩
  | some e =>
    simp only [hl, bind_eq_ok, pure, Except.pure, Except.ok.injEq, Prod.mk.injEq] at h
    obtain ⟨_, _, _, hr⟩ := h
    subst hr
    exact prepends_refl _

theorem getOrAddPrintFuncDecl_prepends (r r1 : Rewriter) (f : LLVMFuncOp)
    (h : getOrAddPrintFuncDecl r true = .ok (f, r1)) : Prepends r.moduleBody r1.moduleBody :=
  declLookup_prepends printfDecl r f r1 (by simpa [getOrAddPrintFuncDecl, printfDecl] using h)

theorem getOrAddPrintMemrefFuncDecl_prepends (r r1 : Rewriter) (f : LLVMFuncOp)
    (h : getOrAddPrintMemrefFuncDecl r = .ok (f, r1)) :
    Prepends r.moduleBody r1.moduleBody :=
  declLookup_prepends printMemrefDecl r f r1
    (by simpa [getOrAddPrintMemrefFuncDecl, printMemrefDecl] using h)

theorem getAssertFuncDecl_prepends (r r1 : Rewriter) (f : LLVMFuncOp)
    (h : getAssertFuncDecl r = .ok (f, r1)) : Prepends r.moduleBody r1.moduleBody :=
  declLookup_prepends assertDecl r f r1 (by simpa [getAssertFuncDecl, assertDecl] using h)

theorem createRuntimePrintScalarCall_prepends (r r2 : Rewriter) (pid : Value × Value × Value)
    (prefixStr : String) (arg : Option Value) (hex isSigned : Bool)
    (h : createRuntimePrintScalarCall r pid prefixStr arg hex isSigned = .ok r2) :
    Prepends r.moduleBody r2.moduleBody := by
  unfold createRuntimePrintScalarCall at h
  split at h
  · simp at h
  · simp only [bind_eq_ok] at h
    obtain ⟨_, _, _, _, _, _, _, _, ⟨v, r1⟩, hadd, args, _, ⟨f, r1b⟩, hdecl, hcall⟩ := h
    simp only [pure, Except.pure, Except.ok.injEq] at hcall
    rw [← hcall]
    show Prepends r.moduleBody r1b.moduleBody
    exact prepends_trans (addStringToModule_prepends _ _ _ _ _ hadd)
      (getOrAddPrintFuncDecl_prepends _ _ _ hdecl)

theorem createRuntimePrintCall_prepends (dead : DeadBuffer) (r r2 : Rewriter) (pid : Value × Value × Value)
    (prefixStr : String) (ptr : Value) (dtype : Ty) (isSigned hex : Bool)
    (h : createRuntimePrintCall dead r pid prefixStr ptr dtype isSigned hex = .ok r2) :
    Prepends r.moduleBody r2.moduleBody := by
  unfold createRuntimePrintCall at h
  split at h
  · simp at h
  · simp only [bind_eq_ok] at h
    obtain ⟨⟨v, r1⟩, hadd, _, _, ⟨f, r1b⟩, hdecl, hcall⟩ := h
    simp only [pure, Except.pure, Except.ok.injEq] at hcall
    rw [← hcall]
    show Prepends r.moduleBody r1b.moduleBody
    exact prepends_trans (addStringToModule_prepends _ _ _ _ _ hadd)
      (getOrAddPrintMemrefFuncDecl_prepends _ _ _ hdecl)

theorem lowerSite_prepends (dead : DeadBuffer) (site : DebugSite) (r r2 : Rewriter)
    (h : lowerSite dead site r = .ok r2) : Prepends r.moduleBody r2.moduleBody := by
  unfold lowerSite at h
  cases hop : site.op with
  | print op =>
    rw [hop] at h
    unfold PrintOpConversion.matchAndRewrite at h
    simp only [bind_eq_ok] at h
    obtain ⟨scalar, _, h⟩ := h
    cases scalar with
    | true =>
      simp only [if_true, bind_eq_ok, pure, Except.pure, Except.ok.injEq] at h
      obtain ⟨r1, h1, hr⟩ := h
      subst hr
      show Prepends r.moduleBody r1.moduleBody
      split at h1
      · exact createRuntimePrintScalarCall_prepends _ _ _ _ _ _ _ h1
      · simp only [bind_eq_ok] at h1
        obtain ⟨_, _, _, _, h1⟩ := h1
        exact createRuntimePrintScalarCall_prepends _ _ _ _ _ _ _ h1
    | false =>
      simp only [Bool.false_eq_true, if_false, bind_eq_ok, pure, Except.pure,
        Except.ok.injEq] at h
      obtain ⟨_, _, _, _, _, _, _, _, r1, h1, hr⟩ := h
      subst hr
      show Prepends r.moduleBody r1.moduleBody
      exact createRuntimePrintCall_prepends _ _ _ _ _ _ _ _ _ h1
  | assert op =>
    rw [hop] at h
    unfold AssertOpConversion.matchAndRewrite at h
    simp only [bind_eq_ok] at h
    obtain ⟨⟨v1, r1⟩, hadd1, ⟨v2, r1b⟩, hadd2, ⟨v3, r1c⟩, hadd3, ⟨f, r1d⟩, hdecl, hcall⟩ := h
    simp only [pure, Except.pure, Except.ok.injEq] at hcall
    rw [← hcall]
    show Prepends r.moduleBody r1d.moduleBody
    exact prepends_trans (prepends_trans (prepends_trans
      (addStringToModule_prepends _ _ _ _ _ hadd1) (addStringToModule_prepends _ _ _ _ _ hadd2))
      (addStringToModule_prepends _ _ _ _ _ hadd3)) (getAssertFuncDecl_prepends _ _ _ hdecl)
  | barrier =>
    rw [hop] at h
    simp only [BarrierOpConversion.matchAndRewrite, Except.ok.injEq] at h
    subst h
    exact prepends_refl _

theorem lowerAll_prepends (dead : DeadBuffer) (sites : List DebugSite) : ∀ (r r2 : Rewriter),
    lowerAll dead sites r = .ok r2 → Prepends r.moduleBody r2.moduleBody := by
  induction sites with
  | nil =>
    intro r r2 h
    simp only [lowerAll, Except.ok.injEq] at h
    subst h
    exact prepends_refl _
  | cons site rest ih =>
    intro r r2 h
    simp only [lowerAll, bind_eq_ok] at h
    obtain ⟨r1, h1, h2⟩ := h
    exact prepends_trans (lowerSite_prepends dead site r r1 h1) (ih r1 r2 h2)

theorem lowerAll_append (dead : DeadBuffer) (sites1 sites2 : List DebugSite) : ∀ (r r1 r2 : Rewriter),
    lowerAll dead sites1 r = .ok r1 → lowerAll dead sites2 r1 = .ok r2 →
    lowerAll dead (sites1 ++ sites2) r = .ok r2 := by
  induction sites1 with
  | nil =>
    intro r r1 r2 h1 h2
    simp only [lowerAll, Except.ok.injEq] at h1
    subst h1
    simpa using h2
  | cons site rest ih =>
    intro r r1 r2 h1 h2
    simp only [lowerAll, bind_eq_ok] at h1
    obtain ⟨ra, ha, hb⟩ := h1
    simp only [List.cons_append, lowerAll, bind_eq_ok]
    exact ⟨ra, ha, ih ra r1 r2 hb h2⟩

/-- C16, as stated, fails on the order: lowering a print and then an assert in
an empty module uses `printf` first and `triton_assert` second, and the module
ends with the declaration of `triton_assert` in front of that of `printf`. -/
theorem declaration_order_not_first_use :
    lowerAll intactBuffer printThenAssertSites emptyRewriter = .ok afterPrintThenAssert
    ∧ afterPrintThenAssert.calls.map (fun c => c.callee.symName) = ["printf", "triton_assert"]
    ∧ symbolNames afterPrintThenAssert.moduleBody
      = ["triton_assert", "assertFunc_0", "assertFile_0", "assertMessage_0", "printf",
         "printfFormat_0"]
    ∧ (symbolNames afterPrintThenAssert.moduleBody).indexOf "triton_assert"
      < (symbolNames afterPrintThenAssert.moduleBody).indexOf "printf" := by
  decide

/-- C16 (amended): a declaration that has to be created is inserted at the very
start of the module; hence, in a traversal that runs to completion from a module
without duplicate names, a symbol `s2` declared only in the later part of the
traversal stands in front of every symbol `s1` that was already declared after
the earlier part: declarations appear in the reverse of their first-use order. -/
theorem declarations_reverse_first_use (dead : DeadBuffer) (sites1 sites2 : List DebugSite)
    (r r1 r2 : Rewriter)
    (s1 s2 : String) (d1 d2 : ModuleEntry)
    (hnodup : (symbolNames r.moduleBody).Nodup)
    (hrun1 : lowerAll dead sites1 r = .ok r1) (hrun2 : lowerAll dead sites2 r1 = .ok r2)
    (hd1 : lookupSymbol r1.moduleBody s1 = some d1)
    (habs : lookupSymbol r1.moduleBody s2 = none)
    (hd2 : lookupSymbol r2.moduleBody s2 = some d2) :
    (∀ q : Rewriter, lookupSymbol q.moduleBody "printf" = none →
      getOrAddPrintFuncDecl q true
        = .ok (printfDecl, { q with moduleBody := .llvmFunc printfDecl :: q.moduleBody }))
    ∧ (∀ q : Rewriter, lookupSymbol q.moduleBody "triton_print_unranked_memref" = none →
      getOrAddPrintMemrefFuncDecl q
        = .ok (printMemrefDecl,
            { q with moduleBody := .llvmFunc printMemrefDecl :: q.moduleBody }))
    ∧ (∀ q : Rewriter, lookupSymbol q.moduleBody "triton_assert" = none →
      getAssertFuncDecl q
        = .ok (assertDecl, { q with moduleBody := .llvmFunc assertDecl :: q.moduleBody }))
    ∧ lowerAll dead (sites1 ++ sites2) r = .ok r2
    ∧ lookupSymbol r2.moduleBody s1 = some d1
    ∧ (symbolNames r2.moduleBody).indexOf s2 < (symbolNames r2.moduleBody).indexOf s1 := by
  refine ⟨?_, ?_, ?_, lowerAll_append dead sites1 sites2 r r1 r2 hrun1 hrun2, ?_, ?_⟩
  · intro q hq
    simp [getOrAddPrintFuncDecl, hq, printfDecl]
  · intro q hq
    simp [getOrAddPrintMemrefFuncDecl, hq, printMemrefDecl]
  · intro q hq
    simp [getAssertFuncDecl, hq, assertDecl]
  · obtain ⟨_, ⟨hext, _, _⟩, _⟩ := lowerAll_step dead sites2 r1 r2 hrun2
    exact hext.2.1 s1 d1 hd1
  · obtain ⟨_, ⟨hext1, _, _⟩, _⟩ := lowerAll_step dead sites1 r r1 hrun1
    obtain ⟨_, ⟨hext2, _, _⟩, _⟩ := lowerAll_step dead sites2 r1 r2 hrun2
    have hnd2 : (symbolNames r2.moduleBody).Nodup := hext2.1 (hext1.1 hnodup)
    obtain ⟨added, hadded⟩ := lowerAll_prepends dead sites2 r1 r2 hrun2
    have hnames : symbolNames r2.moduleBody = symbolNames added ++ symbolNames r1.moduleBody := by
      simp [symbolNames, hadded]
    rw [hnames] at hnd2 ⊢
    have hs1 : s1 ∈ symbolNames r1.moduleBody := by
      obtain ⟨hin, hnm⟩ := lookupSymbol_some _ _ _ hd1
      exact List.mem_map.2 ⟨_, hin, hnm⟩
    have hs2r1 : s2 ∉ symbolNames r1.moduleBody := (lookupSymbol_eq_none_iff _ _).1 habs
    have hs2 : s2 ∈ symbolNames added := by
      obtain ⟨hin, hnm⟩ := lookupSymbol_some _ _ _ hd2
      have : s2 ∈ symbolNames r2.moduleBody := List.mem_map.2 ⟨_, hin, hnm⟩
      rw [hnames] at this
      rcases List.mem_append.1 this with h | h
      · exact h
      · exact absurd h hs2r1
    have hs1a : s1 ∉ symbolNames added := by
      intro hmem
      exact (List.nodup_append.1 hnd2).2.2 hmem hs1
    rw [List.indexOf_append_of_mem hs2, List.indexOf_append_of_not_mem hs1a]
    have := List.indexOf_lt_length.2 hs2
    omega

/-- Witness for C16 (amended): a print, then an assert, in an empty module. -/
theorem declarations_reverse_first_use_witness :
    (∀ q : Rewriter, lookupSymbol q.moduleBody "printf" = none →
      getOrAddPrintFuncDecl q true
        = .ok (printfDecl, { q with moduleBody := .llvmFunc printfDecl :: q.moduleBody }))
    ∧ (∀ q : Rewriter, lookupSymbol q.moduleBody "triton_print_unranked_memref" = none →
      getOrAddPrintMemrefFuncDecl q
        = .ok (printMemrefDecl,
            { q with moduleBody := .llvmFunc printMemrefDecl :: q.moduleBody }))
    ∧ (∀ q : Rewriter, lookupSymbol q.moduleBody "triton_assert" = none →
      getAssertFuncDecl q
        = .ok (assertDecl, { q with moduleBody := .llvmFunc assertDecl :: q.moduleBody }))
    ∧ lowerAll intactBuffer ([⟨.print ⟨"a", false, [], []⟩, [], samplePid⟩]
        ++ [⟨.assert ⟨.ssa 5 i1_ty, "boom", .otherLoc⟩, [], samplePid⟩]) emptyRewriter
      = .ok afterPrintThenAssert
    ∧ lookupSymbol afterPrintThenAssert.moduleBody "printf" = some (.llvmFunc printfDecl)
    ∧ (symbolNames afterPrintThenAssert.moduleBody).indexOf "triton_assert"
      < (symbolNames afterPrintThenAssert.moduleBody).indexOf "printf" :=
  declarations_reverse_first_use intactBuffer [⟨.print ⟨"a", false, [], []⟩, [], samplePid⟩]
    [⟨.assert ⟨.ssa 5 i1_ty, "boom", .otherLoc⟩, [], samplePid⟩]
    emptyRewriter afterPrint afterPrintThenAssert "printf" "triton_assert"
    (.llvmFunc printfDecl) (.llvmFunc assertDecl)
    (by decide) (by decide) (by decide) (by decide) (by decide) (by decide)

end DebugOpsToLLVM
